import Mathlib

/-!
# tech-news-agent: a shallow embedding of the pipeline and its adapters

The Go sources embedded here are

* `internal/services/telegram_notifier.go` (`formatMessage`, `splitMessage`, `SendSummary`,
  `SendError`),
* `internal/services/news_collector.go` (`FetchWeeklyNews`, `GetMockNews`),
* `internal/services/ai_analyzer.go` (`AnalyzeNews`, `extractInsights`),
* `internal/services/agent.go` (`NewsAgent.Run`).

Conventions.

* A Go `string` is modelled by the list of its Unicode code points (`GoString`); the strings
  handled by the program are valid UTF-8.  `len` is the Go `len`, the number of bytes of the
  UTF-8 encoding, not the number of code points.
* A Go `error` is modelled by its message; `nil` is `none`.
* Go `int` values are `Int`s; every integer computed here is a sum of string lengths and a small
  constant, so no 64-bit operation wraps.
* External services (news API, completion API, chat-bot API, clock) are explicit oracles.
-/

set_option autoImplicit false

namespace TechNewsAgent

/-! ## Strings -/

/-- A Go string, as the list of its code points. -/
abbrev GoString := List Char

/-- A Go `error`, represented by its message. -/
abbrev Error := GoString

/-- Go `len(s)`: the number of bytes of the UTF-8 encoding of `s`. -/
def len : GoString → Nat
  | [] => 0
  | c :: cs => c.utf8Size + len cs

/-- Go `strings.Split(s, sep)` for a separator of one ASCII character: the pieces of `s` between
consecutive occurrences of `sep`; never empty. -/
def Split (sep : Char) : GoString → List GoString
  | [] => [[]]
  | c :: cs =>
    if c = sep then [] :: Split sep cs
    else
      match Split sep cs with
      | [] => [[c]]
      | l :: ls => (c :: l) :: ls

/-- Go `strings.Join(parts, sep)` for a separator of one character. -/
def Join (sep : Char) : List GoString → GoString
  | [] => []
  | [p] => p
  | p :: q :: ps => p ++ sep :: Join sep (q :: ps)

/-! ## `splitMessage` (telegram_notifier.go) -/

/-- The body of the `for _, line := range lines` loop of `splitMessage`, with the loop variables
`messages` and `currentMsg` passed explicitly. -/
def splitLoop (maxLength : Int) : List GoString → List GoString → GoString →
    List GoString × GoString
  | [], messages, currentMsg => (messages, currentMsg)
  | line :: lines, messages, currentMsg =>
    -- If adding this line would exceed limit, start new message
    let st : List GoString × GoString :=
      if (len currentMsg : Int) + (len line : Int) + 1 > maxLength then
        (messages ++ [currentMsg], [])
      else (messages, currentMsg)
    let currentMsg := if len st.2 > 0 then st.2 ++ ['\n'] else st.2
    splitLoop maxLength lines st.1 (currentMsg ++ line)

/-- The method `TelegramNotifier.splitMessage`. -/
def splitMessage (message : GoString) (maxLength : Int) : List GoString :=
  if (len message : Int) ≤ maxLength then [message]
  else
    let r := splitLoop maxLength (Split '\n' message) [] []
    if len r.2 > 0 then r.1 ++ [r.2] else r.1

/-! ## More of the `strings` package -/

/-- Go `strings.HasPrefix(s, prefix)`. -/
def HasPrefix : GoString → GoString → Bool
  | _, [] => true
  | [], _ :: _ => false
  | c :: s, p :: ps => c == p && HasPrefix s ps

/-- Go `strings.TrimPrefix(s, prefix)`. -/
def TrimPrefix (s pre : GoString) : GoString :=
  if HasPrefix s pre then s.drop pre.length else s

/-- Go `strings.Contains(s, substr)`. -/
def Contains : GoString → GoString → Bool
  | [], substr => HasPrefix [] substr
  | c :: s, substr => HasPrefix (c :: s) substr || Contains s substr

/-- Go `unicode.IsSpace`: the Latin-1 spaces and the code points with the White_Space
property. -/
def isSpace (c : Char) : Bool :=
  c == '\t' || c == '\n' || c == '\x0b' || c == '\x0c' || c == '\r' || c == ' ' ||
  c.toNat == 0x85 || c.toNat == 0xa0 || c.toNat == 0x1680 ||
  (0x2000 ≤ c.toNat && c.toNat ≤ 0x200a) ||
  c.toNat == 0x2028 || c.toNat == 0x2029 || c.toNat == 0x202f || c.toNat == 0x205f ||
  c.toNat == 0x3000

/-- Removal of the leading white space of a string. -/
def trimLeft : GoString → GoString
  | [] => []
  | c :: s => if isSpace c then trimLeft s else c :: s

/-- Removal of the trailing white space of a string. -/
def trimRight : GoString → GoString
  | [] => []
  | c :: s =>
    match trimRight s with
    | [] => if isSpace c then [] else [c]
    | d :: r => c :: d :: r

/-- Go `strings.TrimSpace(s)`: `s` without its leading and trailing white space. -/
def TrimSpace (s : GoString) : GoString := trimRight (trimLeft s)

/-- Go `unicode.ToLower` as far as the program can observe it.  ASCII capitals are mapped to their
small letters; the only two code points outside ASCII whose lower case is an ASCII letter are
U+0130 (to `i`) and U+212A (to `k`).  Every other code point outside ASCII is left alone here,
where Go maps it to a code point that is again outside ASCII: the program only searches the
lowered text for ASCII keywords, so the difference cannot be observed. -/
def toLowerRune (c : Char) : Char :=
  if 'A' ≤ c ∧ c ≤ 'Z' then Char.ofNat (c.toNat + 32)
  else if c.toNat = 0x130 then 'i'
  else if c.toNat = 0x212a then 'k'
  else c

/-- Go `strings.ToLower(s)`. -/
def ToLower (s : GoString) : GoString := s.map toLowerRune

/-- Go `strings.SplitN(s, sep, 2)` for a separator of one ASCII character: `[s]` when `sep` does
not occur in `s`, else the text before and the text after its first occurrence. -/
def SplitN2 (sep : Char) : GoString → List GoString
  | [] => [[]]
  | c :: cs =>
    if c = sep then [[], cs]
    else
      match SplitN2 sep cs with
      | [before, after] => [c :: before, after]
      | _ => [c :: cs]

/-- The Go test `len(s) > 0 && s[0] >= '0' && s[0] <= '9'` on the first byte of `s`: a byte in
that range is an ASCII digit, the whole encoding of its code point. -/
def startsWithDigit : GoString → Bool
  | [] => false
  | c :: _ => '0' ≤ c && c ≤ '9'

/-- Go `fmt.Sprintf("%d", n)`. -/
def formatInt (n : Int) : GoString :=
  if n < 0 then '-' :: Nat.toDigits 10 n.natAbs else Nat.toDigits 10 n.toNat

/-! ## Data model (internal/models/article.go) -/

/-- A `time.Time`: a reading of the clock, moved by a number of calendar days with
`AddDate(0, 0, days)`. -/
structure Time where
  reading : Int
  days : Int
deriving DecidableEq, Repr

/-- Go `t.AddDate(0, 0, days)`. -/
def Time.AddDate (t : Time) (days : Int) : Time := { t with days := t.days + days }

/-- The struct `models.Article`. -/
structure Article where
  Title : GoString
  Desc : GoString
  URL : GoString
  Source : GoString
  PublishedAt : Time
  Category : GoString
deriving DecidableEq, Repr

/-- The struct `models.NewsSummary`. -/
structure NewsSummary where
  WeekRange : GoString
  TotalArticles : Int
  Summary : GoString
  KeyTopics : List GoString
  TrendingStories : List GoString
  GeneratedAt : Time
deriving DecidableEq, Repr

/-! ## The outside world

The services the program talks to are oracles: the answer to a request may depend on the requests
made before it, and on nothing else.  The world also keeps a record of the requests and of the
calls of the collaborator methods of `NewsAgent.Run`; the record is there for the statements and
is never read by the program. -/

/-- The struct `tgbotapi.MessageConfig`, with the fields the notifier sets. -/
structure MessageConfig where
  ChatID : Int
  Text : GoString
  ParseMode : GoString
  DisableWebPagePreview : Bool
deriving DecidableEq, Repr

/-- Go `tgbotapi.NewMessage(chatID, text)`. -/
def NewMessage (chatID : Int) (text : GoString) : MessageConfig :=
  { ChatID := chatID, Text := text, ParseMode := [], DisableWebPagePreview := false }

/-- A call of one of the collaborator methods invoked by `NewsAgent.Run`, with its arguments. -/
inductive Call where
  | FetchWeeklyNews (categories : List GoString)
  | GetMockNews
  | AnalyzeNews (articles : List Article)
  | SendError (errMsg : GoString)
  | SendSummary (summary : NewsSummary)
deriving DecidableEq, Repr

/-- A `genai.GenerateContentResponse`: its candidates, each given by the parts of its content, each
part by its `%v` rendering. -/
abbrev GenerateContentResponse := List (List GoString)

/-- The state of the world around one process. -/
structure World where
  /-- The outcome of `fetchByCategory` for a category, given the categories requested before. -/
  newsAPI : List GoString → GoString → Except Error (List Article)
  /-- The categories requested so far, oldest first. -/
  queried : List GoString
  /-- The outcome of `GenerateContent` (under the deadline of its context) for a model name and a
  prompt, given the prompts sent before. -/
  gemini : List GoString → GoString → GoString → Except Error GenerateContentResponse
  /-- The prompts sent so far, oldest first. -/
  prompts : List GoString
  /-- The error returned by `bot.Send` for a message, given the messages sent before. -/
  telegram : List MessageConfig → MessageConfig → Option Error
  /-- The messages handed to `bot.Send` so far, oldest first. -/
  attempted : List MessageConfig
  /-- The messages for which `bot.Send` returned no error, oldest first. -/
  delivered : List MessageConfig
  /-- The successive readings of `time.Now()`. -/
  clock : Nat → Time
  /-- The number of readings of the clock so far. -/
  ticks : Nat
  /-- Go `t.Format(layout)`. -/
  format : Time → GoString → GoString
  /-- The calls of collaborator methods so far, oldest first. -/
  calls : List Call

/-- Go `time.Now()`. -/
def World.Now (w : World) : Time × World :=
  (w.clock w.ticks, { w with ticks := w.ticks + 1 })

/-- Entry of a collaborator method in the record of calls. -/
def World.record (w : World) (c : Call) : World :=
  { w with calls := w.calls ++ [c] }

/-- Go `bot.Send(msg)`, of which only the error is used. -/
def World.Send (w : World) (msg : MessageConfig) : Option Error × World :=
  match w.telegram w.attempted msg with
  | some err => (some err, { w with attempted := w.attempted ++ [msg] })
  | none =>
    (none, { w with attempted := w.attempted ++ [msg], delivered := w.delivered ++ [msg] })

/-! ## The notifier (telegram_notifier.go) -/

/-- The struct `TelegramNotifier`; its `bot` is the chat-bot service of the world. -/
structure TelegramNotifier where
  chatID : Int
deriving DecidableEq, Repr

/-- The loop `for _, topic := range summary.KeyTopics` of `formatMessage`. -/
def formatTopics : List GoString → GoString
  | [] => []
  | topic :: topics => "• ".toList ++ topic ++ "\n".toList ++ formatTopics topics

/-- The loop `for i, story := range summary.TrendingStories` of `formatMessage`, from index `i`. -/
def formatStories (i : Nat) : List GoString → GoString
  | [] => []
  | story :: stories =>
    formatInt (i + 1) ++ ". ".toList ++ story ++ "\n".toList ++ formatStories (i + 1) stories

/-- The method `TelegramNotifier.formatMessage`; `format` is `time.Time.Format`. -/
def formatMessage (format : Time → GoString → GoString) (summary : NewsSummary) : GoString :=
  -- Header
  let sb := "📰 *Weekly Tech News Summary*\n".toList
  let sb := sb ++ ("📅 *".toList ++ summary.WeekRange ++ "*\n".toList)
  let sb := sb ++ ("📊 Articles analyzed: ".toList ++ formatInt summary.TotalArticles ++ "\n".toList)
  let sb := sb ++ "\n━━━━━━━━━━━━━━━━━\n\n".toList
  -- Main Summary
  let sb := sb ++ summary.Summary
  let sb := sb ++ "\n\n".toList
  -- Key Topics
  let sb :=
    if summary.KeyTopics.length > 0 then
      sb ++ "━━━━━━━━━━━━━━━━━\n".toList ++ "🔑 *Key Topics*\n\n".toList ++
        formatTopics summary.KeyTopics ++ "\n".toList
    else sb
  -- Trending Stories
  let sb :=
    if summary.TrendingStories.length > 0 then
      sb ++ "━━━━━━━━━━━━━━━━━\n".toList ++ "🔥 *Trending Stories*\n\n".toList ++
        formatStories 0 summary.TrendingStories ++ "\n".toList
    else sb
  -- Footer
  let sb := sb ++ "━━━━━━━━━━━━━━━━━\n".toList
  let sb := sb ++ ("🤖 Generated on ".toList ++
    format summary.GeneratedAt "Jan 02, 2006 15:04 MST".toList ++ "\n".toList)
  sb ++ "_Powered by Gemini AI & Go_".toList

/-- The message built in the loop of `SendSummary` for one chunk: `tgbotapi.NewMessage` on the
chat of the notifier, with `ParseMode = "Markdown"` and `DisableWebPagePreview = true`. -/
def TelegramNotifier.markdownMessage (tn : TelegramNotifier) (msg : GoString) : MessageConfig :=
  { NewMessage tn.chatID msg with ParseMode := "Markdown".toList, DisableWebPagePreview := true }

/-- The loop `for _, msg := range messages` of `SendSummary`. -/
def TelegramNotifier.sendMessages (tn : TelegramNotifier) : List GoString → World →
    Option Error × World
  | [], w => (none, w)
  | msg :: messages, w =>
    let telegramMsg := tn.markdownMessage msg
    match w.Send telegramMsg with
    | (some err, w) => (some ("sending message: ".toList ++ err), w)
    | (none, w) => tn.sendMessages messages w

/-- The method `TelegramNotifier.SendSummary`. -/
def TelegramNotifier.SendSummary (tn : TelegramNotifier) (w : World) (summary : NewsSummary) :
    Option Error × World :=
  let w := w.record (Call.SendSummary summary)
  let message := formatMessage w.format summary
  -- Split message if it's too long (Telegram limit is 4096 characters)
  let messages := splitMessage message 4000
  tn.sendMessages messages w

/-- The messages that `SendSummary` has to send for a summary: one message per chunk of the
formatted summary, in the order of the chunks. -/
def summaryMessages (tn : TelegramNotifier) (format : Time → GoString → GoString)
    (summary : NewsSummary) : List MessageConfig :=
  (splitMessage (formatMessage format summary) 4000).map tn.markdownMessage

/-- The method `TelegramNotifier.SendError`. -/
def TelegramNotifier.SendError (tn : TelegramNotifier) (w : World) (errMsg : GoString) :
    Option Error × World :=
  let w := w.record (Call.SendError errMsg)
  let message := "⚠️ *Tech News Agent Error*\n\n```\n".toList ++ errMsg ++ "\n```".toList
  let msg : MessageConfig := { NewMessage tn.chatID message with ParseMode := "Markdown".toList }
  match w.Send msg with
  | (some err, w) => (some ("sending error message: ".toList ++ err), w)
  | (none, w) => (none, w)

/-! ## The collector (news_collector.go) -/

/-- The struct `NewsCollector`; its `httpClient` reaches the news API of the world. -/
structure NewsCollector where
  apiKey : GoString
  maxResults : Int
deriving DecidableEq, Repr

/-- The method `NewsCollector.fetchByCategory`, reduced to its outcome: the request to the news
API fails (transport error, status other than 200, undecodable body) or yields the articles of
the category. -/
def NewsCollector.fetchByCategory (_nc : NewsCollector) (w : World) (category : GoString) :
    Except Error (List Article) × World :=
  (w.newsAPI w.queried category, { w with queried := w.queried ++ [category] })

/-- The loop `for _, category := range categories` of `FetchWeeklyNews`, with the loop variable
`allArticles` passed explicitly. -/
def NewsCollector.fetchLoop (nc : NewsCollector) : List GoString → List Article → World →
    List Article × World
  | [], allArticles, w => (allArticles, w)
  | category :: categories, allArticles, w =>
    match nc.fetchByCategory w category with
    | (Except.error _, w) =>
      -- Log error but continue with other categories
      nc.fetchLoop categories allArticles w
    | (Except.ok articles, w) => nc.fetchLoop categories (allArticles ++ articles) w

/-- The method `NewsCollector.FetchWeeklyNews`. -/
def NewsCollector.FetchWeeklyNews (nc : NewsCollector) (w : World) (categories : List GoString) :
    Except Error (List Article) × World :=
  let w := w.record (Call.FetchWeeklyNews categories)
  let r := nc.fetchLoop categories [] w
  if r.1.length = 0 then (Except.error "no articles found".toList, r.2)
  else (Except.ok r.1, r.2)

/-- The method `NewsCollector.GetMockNews`. -/
def NewsCollector.GetMockNews (_nc : NewsCollector) (w : World) : List Article × World :=
  let w := w.record Call.GetMockNews
  let t1 := w.Now
  let t2 := t1.2.Now
  let t3 := t2.2.Now
  ([{ Title := "AI Breakthrough: New Language Model Surpasses Human Performance".toList,
      Desc := "Researchers announce a groundbreaking AI model that demonstrates superior performance across multiple benchmarks.".toList,
      URL := "https://example.com/ai-breakthrough".toList,
      Source := "TechCrunch".toList,
      PublishedAt := t1.1.AddDate (-1),
      Category := "technology".toList },
    { Title := "Quantum Computing Reaches New Milestone".toList,
      Desc := "Scientists achieve quantum supremacy with a 1000-qubit processor.".toList,
      URL := "https://example.com/quantum".toList,
      Source := "MIT Technology Review".toList,
      PublishedAt := t2.1.AddDate (-2),
      Category := "science".toList },
    { Title := "Major Tech Companies Announce Climate Initiatives".toList,
      Desc := "Leading technology firms commit to carbon neutrality by 2030.".toList,
      URL := "https://example.com/climate".toList,
      Source := "Bloomberg".toList,
      PublishedAt := t3.1.AddDate (-3),
      Category := "business".toList }], t3.2)

/-! ## The analyzer (ai_analyzer.go) -/

/-- The struct `AIAnalyzer`; its `client` reaches the completion service of the world. -/
structure AIAnalyzer where
  model : GoString
deriving DecidableEq, Repr

/-- The loop `for i, article := range articles` of `buildPrompt`, from index `i`. -/
def promptArticles (i : Nat) : List Article → GoString
  | [] => []
  | article :: articles =>
    formatInt (i + 1) ++ ". Title: ".toList ++ article.Title ++ "\n".toList ++
    ("   Source: ".toList ++ article.Source ++ "\n".toList) ++
    ("   Category: ".toList ++ article.Category ++ "\n".toList) ++
    (if article.Desc ≠ [] then "   Description: ".toList ++ article.Desc ++ "\n".toList else []) ++
    "\n".toList ++ promptArticles (i + 1) articles

/-- The method `AIAnalyzer.buildPrompt`. -/
def buildPrompt (articles : List Article) : GoString :=
  "You are a professional tech news analyst. Analyze the following technology news articles from the past week and create a comprehensive weekly summary.\n\n".toList ++
  "Articles:\n\n".toList ++
  promptArticles 0 articles ++
  "\nPlease provide:\n".toList ++
  "1. A concise executive summary (2-3 paragraphs) of the week's most important tech developments\n".toList ++
  "2. Key topics and themes (list 3-5 main topics)\n".toList ++
  "3. Top 3 trending stories with brief explanations\n".toList ++
  "4. Notable insights or patterns across the news\n\n".toList ++
  "Format your response in a clear, professional manner suitable for a weekly newsletter.\n".toList ++
  "Use markdown formatting with headers (##) for sections.\n".toList

/-- The bullet prefix tested by `extractInsights`, as the source file spells it: the three code
points U+00E2, U+20AC, U+00A2 (bytes `C3 A2 E2 82 AC C2 A2`). -/
def bulletGlyph : GoString := "â€¢".toList

/-- The variables of the loop of `extractInsights`. -/
structure Insights where
  keyTopics : List GoString
  trendingStories : List GoString
  inKeyTopics : Bool
  inTrendingStories : Bool
deriving DecidableEq, Repr

/-- The test of `extractInsights` that opens topic-collection mode. -/
def isTopicsMarker (line : GoString) : Bool :=
  Contains (ToLower line) "key topics".toList || Contains (ToLower line) "main topics".toList

/-- The test of `extractInsights` that opens story-collection mode. -/
def isStoriesMarker (line : GoString) : Bool :=
  Contains (ToLower line) "trending".toList || Contains (ToLower line) "top".toList

/-- The test `HasPrefix(line, "-") || HasPrefix(line, "*") || HasPrefix(line, glyph)`. -/
def hasBulletPrefix (line : GoString) : Bool :=
  HasPrefix line "-".toList || HasPrefix line "*".toList || HasPrefix line bulletGlyph

/-- The three successive `TrimPrefix` calls of `extractInsights`. -/
def trimBullets (line : GoString) : GoString :=
  TrimPrefix (TrimPrefix (TrimPrefix line "-".toList) "*".toList) bulletGlyph

/-- The capture of a key topic: the body of the `if inKeyTopics && ...` statement. -/
def captureTopic (st : Insights) (line : GoString) : Insights :=
  if st.inKeyTopics && hasBulletPrefix line then
    let topic := TrimSpace (trimBullets line)
    if topic ≠ [] ∧ st.keyTopics.length < 5 then
      { st with keyTopics := st.keyTopics ++ [topic] }
    else st
  else st

/-- The statement of `extractInsights` under the comment "Remove leading numbers and dots": a
story that starts with a digit is replaced by `parts[1]` of `SplitN(story, ".", 2)` when there
is more than one part. -/
def stripNumber (story : GoString) : GoString :=
  if startsWithDigit story then
    match SplitN2 '.' story with
    | [_, rest] => rest
    | _ => story
  else story

/-- The capture of a trending story: the body of the `if inTrendingStories && ...` statement. -/
def captureStory (st : Insights) (line : GoString) : Insights :=
  if st.inTrendingStories && (hasBulletPrefix line || startsWithDigit line) then
    let story := trimBullets line
    -- Remove leading numbers and dots
    let story := stripNumber story
    let story := TrimSpace story
    if story ≠ [] ∧ st.trendingStories.length < 3 then
      { st with trendingStories := st.trendingStories ++ [story] }
    else st
  else st

/-- One iteration of the loop `for _, line := range lines` of `extractInsights`. -/
def extractLine (st : Insights) (line : GoString) : Insights :=
  let line := TrimSpace line
  if isTopicsMarker line then
    { st with inKeyTopics := true, inTrendingStories := false }
  else if isStoriesMarker line then
    { st with inTrendingStories := true, inKeyTopics := false }
  else if line = [] ∨ HasPrefix line "#".toList then st
  else captureStory (captureTopic st line) line

/-- The loop of `extractInsights` over the lines of the summary. -/
def extractLines (summary : GoString) : Insights :=
  (Split '\n' summary).foldl extractLine
    { keyTopics := [], trendingStories := [], inKeyTopics := false, inTrendingStories := false }

/-- The generic topics that `extractInsights` falls back to. -/
def fallbackTopics : List GoString :=
  ["Artificial Intelligence".toList, "Cloud Computing".toList, "Cybersecurity".toList]

/-- The generic stories that `extractInsights` falls back to. -/
def fallbackStories : List GoString :=
  ["Major tech industry developments".toList, "Innovation breakthroughs".toList,
    "Market trends".toList]

/-- The method `AIAnalyzer.extractInsights`. -/
def extractInsights (summary : GoString) : List GoString × List GoString :=
  let st := extractLines summary
  -- Fallback to generic topics if extraction failed
  let keyTopics := if st.keyTopics.length = 0 then fallbackTopics else st.keyTopics
  let trendingStories :=
    if st.trendingStories.length = 0 then fallbackStories else st.trendingStories
  (keyTopics, trendingStories)

/-- Go `model.GenerateContent(ctx, genai.Text(prompt))` on the model named `a.model`. -/
def AIAnalyzer.GenerateContent (a : AIAnalyzer) (w : World) (prompt : GoString) :
    Except Error GenerateContentResponse × World :=
  (w.gemini w.prompts a.model prompt, { w with prompts := w.prompts ++ [prompt] })

/-- The method `AIAnalyzer.AnalyzeNews`. -/
def AIAnalyzer.AnalyzeNews (a : AIAnalyzer) (w : World) (articles : List Article) :
    Except Error NewsSummary × World :=
  let w := w.record (Call.AnalyzeNews articles)
  if articles.length = 0 then (Except.error "no articles to analyze".toList, w)
  else
    let prompt := buildPrompt articles
    match a.GenerateContent w prompt with
    | (Except.error err, w) => (Except.error ("generating content: ".toList ++ err), w)
    | (Except.ok resp, w) =>
      match resp with
      | (part :: _) :: _ =>
        let summary := part
        -- Extract key topics and trending stories from the summary
        let insights := extractInsights summary
        let t1 := w.Now
        let t2 := t1.2.Now
        let weekRange := w.format (t1.1.AddDate (-7)) "Jan 02".toList ++ " - ".toList ++
          w.format t2.1 "Jan 02, 2006".toList
        let t3 := t2.2.Now
        (Except.ok
          { WeekRange := weekRange,
            TotalArticles := articles.length,
            Summary := summary,
            KeyTopics := insights.1,
            TrendingStories := insights.2,
            GeneratedAt := t3.1 }, t3.2)
      | _ => (Except.error "no response generated".toList, w)

/-! ## The orchestrator (agent.go) -/

/-- The struct `NewsAgent`, with the category list of its configuration.  The logger only writes
lines and is left out. -/
structure NewsAgent where
  NewsCategories : List GoString
  collector : NewsCollector
  analyzer : AIAnalyzer
  notifier : TelegramNotifier
deriving DecidableEq, Repr

/-- Step 1 of `NewsAgent.Run`: collect the articles, falling back to the mock articles. -/
def NewsAgent.collect (na : NewsAgent) (w : World) : List Article × World :=
  match na.collector.FetchWeeklyNews w na.NewsCategories with
  | (Except.error _, w) =>
    -- Fall back to mock data for testing
    na.collector.GetMockNews w
  | (Except.ok articles, w) => (articles, w)

/-- The method `NewsAgent.Run`. -/
def NewsAgent.Run (na : NewsAgent) (w : World) : Option Error × World :=
  -- Step 1: Collect news
  let c := na.collect w
  -- Step 2: Analyze with AI
  match na.analyzer.AnalyzeNews c.2 c.1 with
  | (Except.error err, w) =>
    let errMsg := "AI analysis failed: ".toList ++ err
    let n := na.notifier.SendError w errMsg
    (some ("analyzing news: ".toList ++ err), n.2)
  | (Except.ok summary, w) =>
    -- Step 3: Send via Telegram
    match na.notifier.SendSummary w summary with
    | (some err, w) => (some ("sending notification: ".toList ++ err), w)
    | (none, w) => (none, w)

/-- Whether a call is a call of `SendError`. -/
def Call.isSendError : Call → Bool
  | Call.SendError _ => true
  | _ => false

/-- Whether a call is a call of `SendSummary`. -/
def Call.isSendSummary : Call → Bool
  | Call.SendSummary _ => true
  | _ => false

/-- The collaborator calls made by `na.Run w`, oldest first: what the run added to the record. -/
def NewsAgent.runCalls (na : NewsAgent) (w : World) : List Call :=
  (na.Run w).2.calls.drop w.calls.length

/-! ## Configuration (internal/config/config.go) -/

/-- The struct `Config`. -/
structure Config where
  GeminiAPIKey : GoString
  TelegramBotToken : GoString
  TelegramChatID : Int
  NewsAPIKey : GoString
  CronSchedule : GoString
  MaxNewsArticles : Int
  GeminiModel : GoString
  NewsCategories : List GoString
deriving DecidableEq, Repr

/-- The environment of the process once `godotenv.Load()` has run: the variables that are set,
with their values. -/
abbrev Environ := List (GoString × GoString)

/-- Go `os.Getenv(key)`: the value of the variable, and the empty string when it is not set. -/
def Getenv (env : Environ) (key : GoString) : GoString :=
  match env.lookup key with
  | some value => value
  | none => []

/-- The number written by a run of decimal digits; `none` when the run is empty or holds a
character that is no digit. -/
def parseDigits (digits : GoString) : Option Nat :=
  if digits ≠ [] ∧ digits.all Char.isDigit = true then
    some (digits.foldl (fun n c => 10 * n + (c.toNat - '0'.toNat)) 0)
  else none

/-- Go `strconv.ParseInt(s, 10, 64)`, which is also `strconv.Atoi(s)` on a 64-bit platform: an
optional sign and decimal digits, within the range of `int64`.  The message of the error names
`fn` and the cause; the quoted input of the Go message is written without escapes. -/
def parseInt64 (fn : GoString) (s : GoString) : Except Error Int :=
  let signed : Bool × GoString :=
    match s with
    | '+' :: rest => (false, rest)
    | '-' :: rest => (true, rest)
    | _ => (false, s)
  match parseDigits signed.2 with
  | none => Except.error (fn ++ ": parsing \"".toList ++ s ++ "\": invalid syntax".toList)
  | some n =>
    if (signed.1 = true ∧ n ≤ 2 ^ 63) then Except.ok (-(n : Int))
    else if (signed.1 = false ∧ n < 2 ^ 63) then Except.ok (n : Int)
    else Except.error (fn ++ ": parsing \"".toList ++ s ++ "\": value out of range".toList)

/-- The method `Config.Validate`. -/
def Config.Validate (c : Config) : Option Error :=
  if c.GeminiAPIKey = [] then some "GEMINI_API_KEY is required".toList
  else if c.TelegramBotToken = [] then some "TELEGRAM_BOT_TOKEN is required".toList
  else if c.TelegramChatID = 0 then some "TELEGRAM_CHAT_ID is required".toList
  else if c.NewsAPIKey = [] then some "NEWS_API_KEY is required".toList
  else none

/-- The function `config.Load`, on the environment left by `godotenv.Load()`. -/
def Load (env : Environ) : Except Error Config :=
  match parseInt64 "strconv.ParseInt".toList (Getenv env "TELEGRAM_CHAT_ID".toList) with
  | Except.error err => Except.error err
  | Except.ok chatID =>
    let maxArticles : Int := 20
    let max := Getenv env "MAX_NEWS_ARTICLES".toList
    let maxArticles : Int :=
      if max ≠ [] then
        match parseInt64 "strconv.Atoi".toList max with
        | Except.ok parsed => parsed
        | Except.error _ => maxArticles
      else maxArticles
    let cronSchedule := Getenv env "CRON_SCHEDULE".toList
    let cronSchedule :=
      if cronSchedule ≠ [] then
        -- Default: Every Monday at 9 AM
        "0 9 * * 1".toList
      else cronSchedule
    let geminiModel := Getenv env "GEMINI_MODEL".toList
    let geminiModel := if geminiModel ≠ [] then "gemini-2.5-flash".toList else geminiModel
    let cfg : Config :=
      { GeminiAPIKey := Getenv env "GEMINI_API_KEY".toList
        TelegramBotToken := Getenv env "TELEGRAM_BOT_TOKEN".toList
        TelegramChatID := chatID
        NewsAPIKey := Getenv env "NEWS_API_KEY".toList
        CronSchedule := cronSchedule
        MaxNewsArticles := maxArticles
        GeminiModel := geminiModel
        NewsCategories := ["technology".toList, "science".toList, "business".toList] }
    match cfg.Validate with
    | some err => Except.error err
    | none => Except.ok cfg

/-! ## Notions used in the statements -/

/-- The outcomes of the successive `fetchByCategory` calls made for a list of categories, in the
order of the categories, when `queried` lists the categories requested before. -/
def fetchOutcomes (newsAPI : List GoString → GoString → Except Error (List Article)) :
    List GoString → List GoString → List (Except Error (List Article))
  | _, [] => []
  | queried, category :: categories =>
    newsAPI queried category :: fetchOutcomes newsAPI (queried ++ [category]) categories

/-- The articles of the fetches that succeeded, concatenated in the order of the fetches; the
fetches that failed contribute nothing. -/
def obtainedArticles : List (Except Error (List Article)) → List Article
  | [] => []
  | Except.error _ :: outcomes => obtainedArticles outcomes
  | Except.ok articles :: outcomes => articles ++ obtainedArticles outcomes

/-- No bullet line follows a topics marker line: `seen` tells whether a marker line came before
the lines at hand.  A line is judged after trimming, as `extractInsights` does. -/
def noBulletAfterMarker : Bool → List GoString → Bool
  | _, [] => true
  | seen, line :: lines =>
    if isTopicsMarker (TrimSpace line) then noBulletAfterMarker true lines
    else !(seen && hasBulletPrefix (TrimSpace line)) && noBulletAfterMarker seen lines

/-- Whether a text contains, in any letter case, one of the keywords on which `extractInsights`
switches its mode: "key topics", "main topics", "trending", "top". -/
def hasModeKeyword (text : GoString) : Bool :=
  isTopicsMarker text || isStoriesMarker text

/-- A text that can stand as an item of a list: it holds on one line, it is not blank, and it
contains no mode keyword. -/
def isPlainItem (text : GoString) : Bool :=
  decide ('\n' ∉ text) && decide (TrimSpace text ≠ []) && !hasModeKeyword text

/-- The completion text made of a "## Key Topics" heading, two bullet lines with the markers `m1`
and `m2` and the texts `b1` and `b2`, a "## Trending Stories" heading, and three numbered lines
with the texts `s1`, `s2`, `s3`. -/
def sectionedCompletion (m1 : Char) (b1 : GoString) (m2 : Char) (b2 s1 s2 s3 : GoString) :
    GoString :=
  Join '\n' ["## Key Topics".toList, m1 :: ' ' :: b1, m2 :: ' ' :: b2,
    "## Trending Stories".toList, "1. ".toList ++ s1, "2. ".toList ++ s2, "3. ".toList ++ s3]

/-- The bullet glyph U+2022 (bytes `E2 80 A2`), as `formatMessage` writes it. -/
def bulletPoint : GoString := "\u2022".toList

/-- Whether a trimmed line begins with "-", "*", the bullet glyph, or the prefix that
`extractInsights` tests in place of the glyph. -/
def startsBullet (line : GoString) : Bool :=
  HasPrefix line "-".toList || HasPrefix line "*".toList || HasPrefix line bulletPoint ||
    HasPrefix line bulletGlyph

/-- The key topic a line stands for, for the markers "-" and "*": the line, once trimmed,
contains no mode keyword and begins with the marker, and the text after the marker is not blank
and does not itself begin with a prefix that `extractInsights` strips after that marker ("*" or
`bulletGlyph` after "-", `bulletGlyph` after "*").  The topic is that text, trimmed. -/
def topicItem (line : GoString) : Option GoString :=
  if hasModeKeyword (TrimSpace line) then none
  else
    match TrimSpace line with
    | [] => none
    | m :: text =>
      if m = '-' then
        if TrimSpace text ≠ [] ∧ HasPrefix text "*".toList = false ∧
            HasPrefix text bulletGlyph = false then some (TrimSpace text)
        else none
      else if m = '*' then
        if TrimSpace text ≠ [] ∧ HasPrefix text bulletGlyph = false then some (TrimSpace text)
        else none
      else none

/-! ## Inputs used in the examples -/

deriving instance DecidableEq for Except

/-- A document of exactly 8050 bytes: ninety-nine lines of 80 bytes and a last line of 31. -/
def longDocument : GoString :=
  Join '\n' (List.replicate 99 (List.replicate 80 'a') ++ [List.replicate 31 'b'])

/-- A document of exactly 8050 bytes with lines of at most 80 bytes, in which a blank line comes
right after the first 4000 bytes: forty-nine lines of 80 bytes, a line of 31, a blank line,
forty-nine lines of 80 and a line of 79. -/
def blankLineDocument : GoString :=
  Join '\n' (List.replicate 49 (List.replicate 80 'a') ++ [List.replicate 31 'b'] ++ [[]] ++
    List.replicate 49 (List.replicate 80 'c') ++ [List.replicate 79 'd'])

/-- A world in which no service has been used yet: every news request fails, the completion
service returns no candidate, every chat message is delivered, and the clock stands still. -/
def quietWorld : World :=
  { newsAPI := fun _ _ => Except.error "unreachable".toList
    queried := []
    gemini := fun _ _ _ => Except.ok []
    prompts := []
    telegram := fun _ _ => none
    attempted := []
    delivered := []
    clock := fun _ => { reading := 0, days := 0 }
    ticks := 0
    format := fun _ layout => layout
    calls := [] }

/-- A notifier for chat 42. -/
def demoNotifier : TelegramNotifier := { chatID := 42 }

/-- A summary whose narrative is `longDocument`; its formatted message needs three chunks. -/
def longSummary : NewsSummary :=
  { WeekRange := "Oct 28 - Nov 04, 2026".toList
    TotalArticles := 3
    Summary := longDocument
    KeyTopics := ["Chips".toList]
    TrendingStories := ["Quantum milestone".toList]
    GeneratedAt := { reading := 0, days := 0 } }

/-- The world `quietWorld` with a chat-bot service that rejects exactly the second message. -/
def secondSendFails : World :=
  { quietWorld with
    telegram := fun sent _ => if sent.length = 1 then some "Bad Gateway".toList else none }

/-- An agent with the category list of the configuration. -/
def demoAgent : NewsAgent :=
  { NewsCategories := ["technology".toList, "science".toList, "business".toList]
    collector := { apiKey := "news-key".toList, maxResults := 20 }
    analyzer := { model := "gemini-2.5-flash".toList }
    notifier := demoNotifier }

/-- A completion text with a "Key Topics" section of two bullets and a "Trending Stories" section
of three numbered items. -/
def demoCompletion : GoString :=
  "## Key Topics\n- Chips\n* Quantum computing\n## Trending Stories\n1. Fab opens\n2. Qubit record\n3. Carbon pledge".toList

/-- The world `quietWorld` with a completion service that answers `demoCompletion`. -/
def answeringWorld : World :=
  { quietWorld with gemini := fun _ _ _ => Except.ok [[demoCompletion]] }

/-- One article about a fab. -/
def fabArticle : Article :=
  { Title := "Fab opens".toList
    Desc := []
    URL := "https://example.com/fab".toList
    Source := "Wire".toList
    PublishedAt := { reading := 0, days := 0 }
    Category := "science".toList }

/-- The world `quietWorld` with a news API that answers every request with no article at all. -/
def emptyNewsWorld : World :=
  { quietWorld with newsAPI := fun _ _ => Except.ok [] }

/-- The world `quietWorld` with a news API that fails except for the category `science`, for
which it returns one article. -/
def partialNewsWorld : World :=
  { quietWorld with
    newsAPI := fun _ category =>
      if category = "science".toList then Except.ok [fabArticle]
      else Except.error "status 500".toList }

/-- A narrative with a topics marker line and no bullet line. -/
def plainNarrative : GoString :=
  "## Key Topics\nChips were in the news.\nSo were qubits.".toList

/-- A completion text in which the first bullet, "Laptops", contains the keyword "top". -/
def laptopsCompletion : GoString :=
  sectionedCompletion '-' "Laptops".toList '-' "Quantum computing".toList
    "Fab opens".toList "Qubit record".toList "Carbon pledge".toList

/-- An environment with the four required settings and nothing else. -/
def requiredEnv : Environ :=
  [("GEMINI_API_KEY".toList, "g-key".toList), ("TELEGRAM_BOT_TOKEN".toList, "t-token".toList),
    ("TELEGRAM_CHAT_ID".toList, "42".toList), ("NEWS_API_KEY".toList, "n-key".toList)]

/-- The environment `requiredEnv` with a schedule and a model of the operator. -/
def customEnv : Environ :=
  requiredEnv ++
    [("CRON_SCHEDULE".toList, "30 6 * * *".toList), ("GEMINI_MODEL".toList, "gemini-pro".toList)]

/-- A completion text whose two key topics are marked with the bullet glyph U+2022. -/
def glyphCompletion : GoString :=
  "## Key Topics\n\u2022 Chips\n\u2022 Quantum computing".toList

/-- The text `glyphCompletion` with "-" in place of the bullet glyph. -/
def dashCompletion : GoString :=
  "## Key Topics\n- Chips\n- Quantum computing".toList

/-- The variables of the loop of `extractInsights` right after a topics marker line. -/
def topicMode : Insights :=
  { keyTopics := [], trendingStories := [], inKeyTopics := true, inTrendingStories := false }

/-- The variables of the loop of `extractInsights` right after a stories marker line. -/
def storyMode : Insights :=
  { keyTopics := [], trendingStories := [], inKeyTopics := false, inTrendingStories := true }

/-- Six bullet lines with the markers "-" and "*", and a line of plain text among them. -/
def sixBullets : List GoString :=
  ["- Chips".toList, "  * Quantum computing ".toList, "Also of note:".toList, "- Robots".toList,
    "- Batteries".toList, "* Fusion".toList, "- Satellites".toList]

/-! # Theorems -/

/-! ## Lengths and lines -/

theorem len_append (a b : GoString) : len (a ++ b) = len a + len b := by
  induction a with
  | nil => simp [len]
  | cons c cs ih => simp [len, ih, Nat.add_assoc]

theorem len_newline : len ['\n'] = 1 := by decide

theorem Split_ne_nil (sep : Char) (s : GoString) : Split sep s ≠ [] := by
  cases s with
  | nil => simp [Split]
  | cons c cs =>
    unfold Split
    split
    · simp
    · split <;> simp

/-! ## `splitMessage`: the size of the chunks -/

/-- Loop invariant of `splitMessage`: when every remaining line fits under the ceiling, the
emitted chunks and the chunk under construction all stay under the ceiling. -/
theorem splitLoop_le (maxLength : Int) (lines : List GoString) :
    ∀ (messages : List GoString) (currentMsg : GoString),
      (∀ l ∈ lines, (len l : Int) ≤ maxLength) →
      (∀ m ∈ messages, (len m : Int) ≤ maxLength) →
      (len currentMsg : Int) ≤ maxLength →
      (∀ m ∈ (splitLoop maxLength lines messages currentMsg).1, (len m : Int) ≤ maxLength) ∧
        (len (splitLoop maxLength lines messages currentMsg).2 : Int) ≤ maxLength := by
  induction lines with
  | nil => intro messages currentMsg _ hm hc; exact ⟨hm, hc⟩
  | cons line lines ih =>
    intro messages currentMsg hl hm hc
    have hline : (len line : Int) ≤ maxLength := hl line (List.mem_cons_self _ _)
    have hrest : ∀ l ∈ lines, (len l : Int) ≤ maxLength :=
      fun l h => hl l (List.mem_cons_of_mem _ h)
    unfold splitLoop
    by_cases hover : (len currentMsg : Int) + (len line : Int) + 1 > maxLength
    · simp only [hover, if_true]
      apply ih _ _ hrest
      · intro m hmem
        rcases List.mem_append.1 hmem with h | h
        · exact hm m h
        · simp at h; subst h; exact hc
      · simpa [len] using hline
    · simp only [hover, if_false]
      apply ih _ _ hrest hm
      by_cases hpos : len currentMsg > 0
      · simp only [hpos, if_true, len_append, len_newline]
        push_cast
        omega
      · simp only [hpos, if_false, len_append]
        push_cast
        omega

/-- C1. Whenever every newline-separated line of `message` is at most `maxLength` bytes long,
every chunk returned by `splitMessage message maxLength` is at most `maxLength` bytes long. -/
theorem splitMessage_chunk_le (message : GoString) (maxLength : Int)
    (hlines : ∀ l ∈ Split '\n' message, (len l : Int) ≤ maxLength) :
    ∀ c ∈ splitMessage message maxLength, (len c : Int) ≤ maxLength := by
  intro c hc
  unfold splitMessage at hc
  by_cases hfit : (len message : Int) ≤ maxLength
  · simp only [hfit, if_true, List.mem_singleton] at hc
    subst hc; exact hfit
  · simp only [hfit, if_false] at hc
    have hmax : (0 : Int) ≤ maxLength := by
      obtain ⟨l, ls, hsp⟩ := List.exists_cons_of_ne_nil (Split_ne_nil '\n' message)
      have := hlines l (by rw [hsp]; exact List.mem_cons_self _ _)
      omega
    have hinv := splitLoop_le maxLength (Split '\n' message) [] [] hlines
      (by intro m hm; cases hm) (by simpa [len] using hmax)
    by_cases hpos : len (splitLoop maxLength (Split '\n' message) [] []).2 > 0
    · simp only [hpos, if_true] at hc
      rcases List.mem_append.1 hc with h | h
      · exact hinv.1 c h
      · simp at h; subst h; exact hinv.2
    · simp only [hpos, if_false] at hc
      exact hinv.1 c hc

/-- Witness for C1: the document of 8050 bytes with lines of at most 80 bytes, split at 4000; its
lines are also under the ceiling, and each of its chunks is at most 4000 bytes long. -/
theorem splitMessage_chunk_le_witness :
    len longDocument = 8050 ∧ (∀ l ∈ Split '\n' longDocument, (len l : Int) ≤ 80) ∧
      ∀ c ∈ splitMessage longDocument 4000, (len c : Int) ≤ 4000 :=
  ⟨by decide!, by decide!,
    splitMessage_chunk_le longDocument 4000 (fun l hl =>
      le_trans ((by decide! : ∀ l ∈ Split '\n' longDocument, (len l : Int) ≤ 80) l hl)
        (by decide))⟩

/-! ## `splitMessage`: a blank line at the head of a chunk -/

/-- C2, the code at a document that does not come back.  `blankLineDocument` has 8050 bytes and
lines of at most 80 bytes; its first fifty lines fill 4000 bytes exactly and the next line is
blank.  `splitMessage` returns three chunks of 4000, 3968 and 79 bytes, and joining them with
newlines gives 8049 bytes: the blank line is gone. -/
theorem splitMessage_loses_blank_line :
    len blankLineDocument = 8050 ∧
      (∀ l ∈ Split '\n' blankLineDocument, len l ≤ 80) ∧
      (Split '\n' blankLineDocument).length = 101 ∧
      splitMessage blankLineDocument 4000 =
        [Join '\n' (List.replicate 49 (List.replicate 80 'a') ++ [List.replicate 31 'b']),
          Join '\n' (List.replicate 49 (List.replicate 80 'c')),
          List.replicate 79 'd'] ∧
      (Split '\n' (Join '\n' (splitMessage blankLineDocument 4000))).length = 100 ∧
      Join '\n' (splitMessage blankLineDocument 4000) ≠ blankLineDocument := by
  decide!

/-! ## `SendSummary`: the chunks are sent in order -/

/-- The loop of `SendSummary` leaves the record of calls alone. -/
theorem sendMessages_calls (tn : TelegramNotifier) (messages : List GoString) :
    ∀ w : World, (tn.sendMessages messages w).2.calls = w.calls := by
  induction messages with
  | nil => intro w; rfl
  | cons msg messages ih =>
    intro w
    unfold TelegramNotifier.sendMessages World.Send
    cases hsend : w.telegram w.attempted (tn.markdownMessage msg) with
    | some err => simp only [hsend]
    | none => simp only [hsend]; rw [ih]

/-- The loop of `SendSummary` when no send fails: every message is attempted and delivered, in
the order of the list, and the loop ends without error. -/
theorem sendMessages_ok (tn : TelegramNotifier) (messages : List GoString) :
    ∀ w : World,
      (∀ i m, messages[i]? = some m →
        w.telegram (w.attempted ++ (messages.take i).map tn.markdownMessage)
          (tn.markdownMessage m) = none) →
      (tn.sendMessages messages w).1 = none ∧
      (tn.sendMessages messages w).2.attempted =
        w.attempted ++ messages.map tn.markdownMessage ∧
      (tn.sendMessages messages w).2.delivered =
        w.delivered ++ messages.map tn.markdownMessage := by
  induction messages with
  | nil => intro w _; simp [TelegramNotifier.sendMessages]
  | cons msg messages ih =>
    intro w h
    have h0 : w.telegram w.attempted (tn.markdownMessage msg) = none := by
      simpa using h 0 msg (by simp)
    unfold TelegramNotifier.sendMessages World.Send
    simp only [h0]
    have hrec := ih { w with attempted := w.attempted ++ [tn.markdownMessage msg],
                             delivered := w.delivered ++ [tn.markdownMessage msg] }
      (by
        intro i m hm
        have := h (i + 1) m (by simpa using hm)
        simpa [List.append_assoc] using this)
    simpa [List.append_assoc] using hrec

/-- The loop of `SendSummary` when the send of the message at index `k` is the first to fail:
the messages up to index `k` are attempted, those before it delivered, and the loop returns the
wrapped error. -/
theorem sendMessages_fail (tn : TelegramNotifier) (messages : List GoString) :
    ∀ (w : World) (k : Nat) (m : GoString) (e : Error),
      messages[k]? = some m →
      (∀ i m', i < k → messages[i]? = some m' →
        w.telegram (w.attempted ++ (messages.take i).map tn.markdownMessage)
          (tn.markdownMessage m') = none) →
      w.telegram (w.attempted ++ (messages.take k).map tn.markdownMessage)
        (tn.markdownMessage m) = some e →
      (tn.sendMessages messages w).1 = some ("sending message: ".toList ++ e) ∧
      (tn.sendMessages messages w).2.attempted =
        w.attempted ++ (messages.take (k + 1)).map tn.markdownMessage ∧
      (tn.sendMessages messages w).2.delivered =
        w.delivered ++ (messages.take k).map tn.markdownMessage := by
  induction messages with
  | nil => intro w k m e hk; simp at hk
  | cons msg messages ih =>
    intro w k m e hk hprev hfail
    cases k with
    | zero =>
      have hm : msg = m := by simpa using hk
      subst hm
      have h0 : w.telegram w.attempted (tn.markdownMessage msg) = some e := by
        simpa using hfail
      unfold TelegramNotifier.sendMessages World.Send
      simp [h0]
    | succ k =>
      have h0 : w.telegram w.attempted (tn.markdownMessage msg) = none := by
        simpa using hprev 0 msg (Nat.succ_pos k) (by simp)
      unfold TelegramNotifier.sendMessages World.Send
      simp only [h0]
      have hrec := ih { w with attempted := w.attempted ++ [tn.markdownMessage msg],
                               delivered := w.delivered ++ [tn.markdownMessage msg] } k m e
        (by simpa using hk)
        (by
          intro i m' hi hm'
          have := hprev (i + 1) m' (Nat.succ_lt_succ hi) (by simpa using hm')
          simpa [List.append_assoc] using this)
        (by simpa [List.append_assoc] using hfail)
      simpa [List.append_assoc] using hrec

/-- C3. Let `chunks` be the messages built from the chunks of the formatted summary, one per
chunk and in their order.  If no send fails, `SendSummary` attempts and delivers exactly
`chunks`, in that order, and returns no error.  If the send of the chunk at index `k` is the
first to fail, with error `e`, then exactly the chunks up to index `k` were attempted, exactly
those before index `k` were delivered, no later chunk was attempted, and `SendSummary` returns
an error. -/
theorem SendSummary_in_order (tn : TelegramNotifier) (w : World) (summary : NewsSummary) :
    ((∀ (i : Nat) (hi : i < (summaryMessages tn w.format summary).length),
        w.telegram (w.attempted ++ (summaryMessages tn w.format summary).take i)
          (summaryMessages tn w.format summary)[i] = none) →
      (tn.SendSummary w summary).1 = none ∧
      (tn.SendSummary w summary).2.attempted =
        w.attempted ++ summaryMessages tn w.format summary ∧
      (tn.SendSummary w summary).2.delivered =
        w.delivered ++ summaryMessages tn w.format summary) ∧
    (∀ (k : Nat) (e : Error) (hk : k < (summaryMessages tn w.format summary).length),
      (∀ (i : Nat) (hi : i < (summaryMessages tn w.format summary).length), i < k →
        w.telegram (w.attempted ++ (summaryMessages tn w.format summary).take i)
          (summaryMessages tn w.format summary)[i] = none) →
      w.telegram (w.attempted ++ (summaryMessages tn w.format summary).take k)
        (summaryMessages tn w.format summary)[k] = some e →
      (tn.SendSummary w summary).1 = some ("sending message: ".toList ++ e) ∧
      (tn.SendSummary w summary).2.attempted =
        w.attempted ++ (summaryMessages tn w.format summary).take (k + 1) ∧
      (tn.SendSummary w summary).2.delivered =
        w.delivered ++ (summaryMessages tn w.format summary).take k) := by
  have hlen : (summaryMessages tn w.format summary).length =
      (splitMessage (formatMessage w.format summary) 4000).length := by
    simp [summaryMessages]
  constructor
  · intro h
    have := sendMessages_ok tn (splitMessage (formatMessage w.format summary) 4000)
      (w.record (Call.SendSummary summary))
      (by
        intro i m hm
        have hi : i < (splitMessage (formatMessage w.format summary) 4000).length :=
          (List.getElem?_eq_some.1 hm).1
        have hget := h i (hlen ▸ hi)
        have hmv : (splitMessage (formatMessage w.format summary) 4000)[i] = m :=
          (List.getElem?_eq_some.1 hm).2
        simpa [summaryMessages, World.record, List.map_take, hmv] using hget)
    simpa [TelegramNotifier.SendSummary, summaryMessages, World.record] using this
  · intro k e hk hprev hfail
    have hk' : k < (splitMessage (formatMessage w.format summary) 4000).length := hlen ▸ hk
    have := sendMessages_fail tn (splitMessage (formatMessage w.format summary) 4000)
      (w.record (Call.SendSummary summary)) k
      ((splitMessage (formatMessage w.format summary) 4000)[k]) e
      (List.getElem?_eq_getElem hk')
      (by
        intro i m' hik hm'
        have hi : i < (splitMessage (formatMessage w.format summary) 4000).length :=
          (List.getElem?_eq_some.1 hm').1
        have hget := hprev i (hlen ▸ hi) hik
        have hmv : (splitMessage (formatMessage w.format summary) 4000)[i] = m' :=
          (List.getElem?_eq_some.1 hm').2
        simpa [summaryMessages, World.record, List.map_take, hmv] using hget)
      (by simpa [summaryMessages, World.record, List.map_take] using hfail)
    simpa [TelegramNotifier.SendSummary, summaryMessages, World.record, List.map_take]
      using this

/-- The chat-bot service of `secondSendFails` rejects a message exactly when one message was
sent before it. -/
theorem secondSendFails_telegram (sent : List MessageConfig) (msg : MessageConfig) :
    secondSendFails.telegram sent msg =
      if sent.length = 1 then some "Bad Gateway".toList else none := rfl

theorem secondSendFails_attempted : secondSendFails.attempted = [] := rfl

/-- Witness for C3: the formatted `longSummary` needs three chunks and the chat-bot service
rejects the second message.  The first two chunks are attempted, the first is delivered, the
third is never attempted, and `SendSummary` returns an error. -/
theorem SendSummary_in_order_witness :
    (summaryMessages demoNotifier secondSendFails.format longSummary).length = 3 ∧
    (demoNotifier.SendSummary secondSendFails longSummary).1 =
      some ("sending message: ".toList ++ "Bad Gateway".toList) ∧
    (demoNotifier.SendSummary secondSendFails longSummary).2.attempted =
      secondSendFails.attempted ++
        (summaryMessages demoNotifier secondSendFails.format longSummary).take (1 + 1) ∧
    (demoNotifier.SendSummary secondSendFails longSummary).2.delivered =
      secondSendFails.delivered ++
        (summaryMessages demoNotifier secondSendFails.format longSummary).take 1 :=
  have hlen : (summaryMessages demoNotifier secondSendFails.format longSummary).length = 3 := by
    decide!
  ⟨hlen,
    (SendSummary_in_order demoNotifier secondSendFails longSummary).2 1 "Bad Gateway".toList
      (by rw [hlen]; decide)
      (by
        intro i hi hlt
        have hi0 : i = 0 := by omega
        subst hi0
        rw [secondSendFails_telegram, secondSendFails_attempted, if_neg]
        rw [List.nil_append, List.length_take, hlen]
        decide)
      (by
        rw [secondSendFails_telegram, secondSendFails_attempted, if_pos]
        rw [List.nil_append, List.length_take, hlen]
        decide)⟩

/-! ## `NewsAgent.Run`: the record of calls -/

theorem fetchLoop_calls (nc : NewsCollector) (categories : List GoString) :
    ∀ (allArticles : List Article) (w : World),
      (nc.fetchLoop categories allArticles w).2.calls = w.calls := by
  induction categories with
  | nil => intro allArticles w; rfl
  | cons category categories ih =>
    intro allArticles w
    unfold NewsCollector.fetchLoop NewsCollector.fetchByCategory
    cases w.newsAPI w.queried category with
    | error e => simp only []; rw [ih]
    | ok articles => simp only []; rw [ih]

theorem FetchWeeklyNews_calls (nc : NewsCollector) (w : World) (categories : List GoString) :
    (nc.FetchWeeklyNews w categories).2.calls =
      w.calls ++ [Call.FetchWeeklyNews categories] := by
  unfold NewsCollector.FetchWeeklyNews
  simp only []
  split <;> simp [fetchLoop_calls, World.record]

theorem GetMockNews_calls (nc : NewsCollector) (w : World) :
    (nc.GetMockNews w).2.calls = w.calls ++ [Call.GetMockNews] := rfl

theorem AnalyzeNews_calls (a : AIAnalyzer) (w : World) (articles : List Article) :
    (a.AnalyzeNews w articles).2.calls = w.calls ++ [Call.AnalyzeNews articles] := by
  unfold AIAnalyzer.AnalyzeNews AIAnalyzer.GenerateContent
  simp only []
  split
  · rfl
  · cases (w.record (Call.AnalyzeNews articles)).gemini
        (w.record (Call.AnalyzeNews articles)).prompts a.model (buildPrompt articles) with
    | error e => rfl
    | ok resp =>
      simp only []
      split <;> rfl

theorem Send_calls (w : World) (msg : MessageConfig) : (w.Send msg).2.calls = w.calls := by
  unfold World.Send
  cases w.telegram w.attempted msg <;> rfl

theorem SendError_calls (tn : TelegramNotifier) (w : World) (errMsg : GoString) :
    (tn.SendError w errMsg).2.calls = w.calls ++ [Call.SendError errMsg] := by
  unfold TelegramNotifier.SendError
  simp only []
  generalize hmsg : ({ NewMessage tn.chatID
    ("⚠️ *Tech News Agent Error*\n\n```\n".toList ++ errMsg ++ "\n```".toList) with
    ParseMode := "Markdown".toList } : MessageConfig) = msg
  have hs := Send_calls (w.record (Call.SendError errMsg)) msg
  cases hS : (w.record (Call.SendError errMsg)).Send msg with
  | mk o w1 =>
    rw [hS] at hs
    cases o <;> simpa [World.record] using hs

theorem SendSummary_calls (tn : TelegramNotifier) (w : World) (summary : NewsSummary) :
    (tn.SendSummary w summary).2.calls = w.calls ++ [Call.SendSummary summary] := by
  unfold TelegramNotifier.SendSummary
  simp only [sendMessages_calls]
  rfl

/-- Step 1 of `Run` calls `FetchWeeklyNews` once, and `GetMockNews` once after it exactly when
`FetchWeeklyNews` returned an error. -/
theorem collect_calls (na : NewsAgent) (w : World) :
    (na.collect w).2.calls = w.calls ++ [Call.FetchWeeklyNews na.NewsCategories] ∨
    (na.collect w).2.calls =
      w.calls ++ [Call.FetchWeeklyNews na.NewsCategories, Call.GetMockNews] := by
  unfold NewsAgent.collect
  have hc := FetchWeeklyNews_calls na.collector w na.NewsCategories
  cases hF : na.collector.FetchWeeklyNews w na.NewsCategories with
  | mk r w1 =>
    rw [hF] at hc
    cases r with
    | error e =>
      right
      simp only [GetMockNews_calls]
      simp only [] at hc
      rw [hc]; simp
    | ok articles => left; exact hc

/-- What `Run` does after step 1, as an equation. -/
theorem Run_eq (na : NewsAgent) (w : World) :
    na.Run w =
      match na.analyzer.AnalyzeNews (na.collect w).2 (na.collect w).1 with
      | (Except.error err, w2) =>
        (some ("analyzing news: ".toList ++ err),
          (na.notifier.SendError w2 ("AI analysis failed: ".toList ++ err)).2)
      | (Except.ok summary, w2) =>
        match na.notifier.SendSummary w2 summary with
        | (some err, w3) => (some ("sending notification: ".toList ++ err), w3)
        | (none, w3) => (none, w3) := rfl

/-- The calls made by a run whose analysis fails. -/
theorem Run_calls_of_error (na : NewsAgent) (w : World) (err : Error)
    (h : (na.analyzer.AnalyzeNews (na.collect w).2 (na.collect w).1).1 = Except.error err) :
    (na.Run w).1 = some ("analyzing news: ".toList ++ err) ∧
    (na.Run w).2.calls = (na.collect w).2.calls ++
      [Call.AnalyzeNews (na.collect w).1, Call.SendError ("AI analysis failed: ".toList ++ err)] := by
  have hc := AnalyzeNews_calls na.analyzer (na.collect w).2 (na.collect w).1
  rw [Run_eq]
  cases hA : na.analyzer.AnalyzeNews (na.collect w).2 (na.collect w).1 with
  | mk r w2 =>
    rw [hA] at h hc
    simp only [] at h hc
    subst h
    simp only [SendError_calls, hc, List.append_assoc, List.singleton_append, true_and]

/-- The calls made by a run whose analysis succeeds. -/
theorem Run_calls_of_ok (na : NewsAgent) (w : World) (summary : NewsSummary)
    (h : (na.analyzer.AnalyzeNews (na.collect w).2 (na.collect w).1).1 = Except.ok summary) :
    (na.Run w).1 =
      (na.notifier.SendSummary (na.analyzer.AnalyzeNews (na.collect w).2 (na.collect w).1).2
        summary).1.map (fun err => "sending notification: ".toList ++ err) ∧
    (na.Run w).2.calls = (na.collect w).2.calls ++
      [Call.AnalyzeNews (na.collect w).1, Call.SendSummary summary] := by
  have hc := AnalyzeNews_calls na.analyzer (na.collect w).2 (na.collect w).1
  rw [Run_eq]
  cases hA : na.analyzer.AnalyzeNews (na.collect w).2 (na.collect w).1 with
  | mk r w2 =>
    rw [hA] at h hc
    simp only [] at h hc
    subst h
    have hs := SendSummary_calls na.notifier w2 summary
    dsimp only
    cases hS : na.notifier.SendSummary w2 summary with
    | mk o w3 =>
      rw [hS] at hs
      simp only [] at hs
      cases o with
      | none => simp [hs, hc]
      | some e => simp [hs, hc]

/-! ## `NewsAgent.Run`: the failure policy -/

/-- The calls of a run are what the run appended to the record of step 1. -/
theorem runCalls_eq (na : NewsAgent) (w : World) (pre post : List Call)
    (hpre : (na.collect w).2.calls = w.calls ++ pre)
    (hrun : (na.Run w).2.calls = (na.collect w).2.calls ++ post) :
    na.runCalls w = pre ++ post := by
  unfold NewsAgent.runCalls
  rw [hrun, hpre, List.append_assoc, List.drop_left]

/-- C4. In a run whose analysis returns an error, `Run` returns an error, and among the calls
made by the run there is exactly one call of `SendError`, the last call of the run, and no call
of `SendSummary`.  Nothing is assumed about the outcome of that `SendError` call. -/
theorem Run_analysis_error (na : NewsAgent) (w : World) (err : Error)
    (h : (na.analyzer.AnalyzeNews (na.collect w).2 (na.collect w).1).1 = Except.error err) :
    (na.Run w).1 = some ("analyzing news: ".toList ++ err) ∧
    (na.runCalls w).countP Call.isSendError = 1 ∧
    (na.runCalls w).countP Call.isSendSummary = 0 ∧
    (na.runCalls w).getLast? = some (Call.SendError ("AI analysis failed: ".toList ++ err)) := by
  obtain ⟨hres, hcalls⟩ := Run_calls_of_error na w err h
  refine ⟨hres, ?_⟩
  rcases collect_calls na w with hpre | hpre
  · rw [runCalls_eq na w _ _ hpre hcalls]
    simp [List.countP_cons, Call.isSendError, Call.isSendSummary]
  · rw [runCalls_eq na w _ _ hpre hcalls]
    simp [List.countP_cons, Call.isSendError, Call.isSendSummary]

/-- Witness for C4: in `quietWorld` the completion service returns no candidate, so the analysis
of the mock articles fails. -/
theorem Run_analysis_error_witness :
    (demoAgent.analyzer.AnalyzeNews (demoAgent.collect quietWorld).2
        (demoAgent.collect quietWorld).1).1 = Except.error "no response generated".toList ∧
    ((demoAgent.Run quietWorld).1 =
        some ("analyzing news: ".toList ++ "no response generated".toList) ∧
      (demoAgent.runCalls quietWorld).countP Call.isSendError = 1 ∧
      (demoAgent.runCalls quietWorld).countP Call.isSendSummary = 0 ∧
      (demoAgent.runCalls quietWorld).getLast? =
        some (Call.SendError ("AI analysis failed: ".toList ++ "no response generated".toList))) :=
  ⟨by decide!, Run_analysis_error demoAgent quietWorld "no response generated".toList (by decide!)⟩

/-- C5. In a run whose `FetchWeeklyNews` returns an error, the articles that `Run` passes to
`AnalyzeNews` are exactly the articles returned by `GetMockNews`, three articles with fixed
titles and categories, and the outcome of `Run` is the outcome of the analysis and notification
of those articles: the collection error does not appear in it. -/
theorem Run_collection_error (na : NewsAgent) (w : World) (e : Error)
    (h : (na.collector.FetchWeeklyNews w na.NewsCategories).1 = Except.error e) :
    na.collect w =
      na.collector.GetMockNews (na.collector.FetchWeeklyNews w na.NewsCategories).2 ∧
    (na.collect w).1.map Article.Title =
      ["AI Breakthrough: New Language Model Surpasses Human Performance".toList,
        "Quantum Computing Reaches New Milestone".toList,
        "Major Tech Companies Announce Climate Initiatives".toList] ∧
    (na.collect w).1.map Article.Category =
      ["technology".toList, "science".toList, "business".toList] ∧
    [Call.FetchWeeklyNews na.NewsCategories, Call.GetMockNews,
      Call.AnalyzeNews (na.collect w).1] <+: na.runCalls w ∧
    (na.Run w).1 =
      (match na.analyzer.AnalyzeNews (na.collect w).2 (na.collect w).1 with
        | (Except.error err, _) => some ("analyzing news: ".toList ++ err)
        | (Except.ok summary, w2) =>
          (na.notifier.SendSummary w2 summary).1.map
            (fun err => "sending notification: ".toList ++ err)) := by
  have hcol : na.collect w =
      na.collector.GetMockNews (na.collector.FetchWeeklyNews w na.NewsCategories).2 := by
    unfold NewsAgent.collect
    cases hF : na.collector.FetchWeeklyNews w na.NewsCategories with
    | mk r w1 =>
      rw [hF] at h
      simp only [] at h
      subst h
      rfl
  have hpre : (na.collect w).2.calls =
      w.calls ++ [Call.FetchWeeklyNews na.NewsCategories, Call.GetMockNews] := by
    rw [hcol, GetMockNews_calls, FetchWeeklyNews_calls]; simp
  refine ⟨hcol, ?_, ?_, ?_, ?_⟩
  · rw [hcol]; rfl
  · rw [hcol]; rfl
  · cases hA : (na.analyzer.AnalyzeNews (na.collect w).2 (na.collect w).1).1 with
    | error err =>
      rw [runCalls_eq na w _ _ hpre (Run_calls_of_error na w err hA).2]
      exact ⟨[Call.SendError ("AI analysis failed: ".toList ++ err)], by simp⟩
    | ok summary =>
      rw [runCalls_eq na w _ _ hpre (Run_calls_of_ok na w summary hA).2]
      exact ⟨[Call.SendSummary summary], by simp⟩
  · rw [Run_eq]
    cases hA : na.analyzer.AnalyzeNews (na.collect w).2 (na.collect w).1 with
    | mk r w2 =>
      cases r with
      | error err => rfl
      | ok summary =>
        dsimp only
        cases hS : na.notifier.SendSummary w2 summary with
        | mk o w3 => cases o <;> rfl

/-- Witness for C5: in `quietWorld` every request to the news API fails. -/
theorem Run_collection_error_witness :
    (demoAgent.collector.FetchWeeklyNews quietWorld demoAgent.NewsCategories).1 =
      Except.error "no articles found".toList ∧
    (demoAgent.collect quietWorld).1.length = 3 ∧
    [Call.FetchWeeklyNews demoAgent.NewsCategories, Call.GetMockNews,
      Call.AnalyzeNews (demoAgent.collect quietWorld).1] <+: demoAgent.runCalls quietWorld :=
  ⟨by decide!, by decide!,
    (Run_collection_error demoAgent quietWorld "no articles found".toList (by decide!)).2.2.2.1⟩

/-- C6. In a run whose analysis succeeds with `summary`, among the calls made by the run there
is exactly one call of `SendSummary`, the last call of the run and on that very `summary`, and no
call of `SendError`; `Run` returns no error exactly when that `SendSummary` call returns none.
Hence, for the run, success is the same as success of both the analysis and the notification. -/
theorem Run_analysis_ok (na : NewsAgent) (w : World) (summary : NewsSummary)
    (h : (na.analyzer.AnalyzeNews (na.collect w).2 (na.collect w).1).1 = Except.ok summary) :
    (na.runCalls w).countP Call.isSendSummary = 1 ∧
    (na.runCalls w).countP Call.isSendError = 0 ∧
    (na.runCalls w).getLast? = some (Call.SendSummary summary) ∧
    ((na.Run w).1 = none ↔
      (na.notifier.SendSummary (na.analyzer.AnalyzeNews (na.collect w).2 (na.collect w).1).2
        summary).1 = none) ∧
    ((na.Run w).1 = none ↔
      ∃ s, (na.analyzer.AnalyzeNews (na.collect w).2 (na.collect w).1).1 = Except.ok s ∧
        (na.notifier.SendSummary (na.analyzer.AnalyzeNews (na.collect w).2 (na.collect w).1).2
          s).1 = none) := by
  obtain ⟨hres, hcalls⟩ := Run_calls_of_ok na w summary h
  have hiff : (na.Run w).1 = none ↔
      (na.notifier.SendSummary (na.analyzer.AnalyzeNews (na.collect w).2 (na.collect w).1).2
        summary).1 = none := by
    rw [hres]; simp
  have hcount : (na.runCalls w).countP Call.isSendSummary = 1 ∧
      (na.runCalls w).countP Call.isSendError = 0 ∧
      (na.runCalls w).getLast? = some (Call.SendSummary summary) := by
    rcases collect_calls na w with hpre | hpre
    · rw [runCalls_eq na w _ _ hpre hcalls]
      simp [List.countP_cons, Call.isSendError, Call.isSendSummary]
    · rw [runCalls_eq na w _ _ hpre hcalls]
      simp [List.countP_cons, Call.isSendError, Call.isSendSummary]
  refine ⟨hcount.1, hcount.2.1, hcount.2.2, hiff, ?_⟩
  rw [hiff]
  constructor
  · intro hs; exact ⟨summary, h, hs⟩
  · rintro ⟨s, hs, hsend⟩
    rw [h] at hs
    cases hs
    exact hsend

/-- Witness for C6: in `answeringWorld` the completion service answers and every chat message
is delivered, so the run succeeds. -/
theorem Run_analysis_ok_witness :
    (∃ summary, (demoAgent.analyzer.AnalyzeNews (demoAgent.collect answeringWorld).2
        (demoAgent.collect answeringWorld).1).1 = Except.ok summary) ∧
    (demoAgent.runCalls answeringWorld).countP Call.isSendSummary = 1 ∧
    (demoAgent.runCalls answeringWorld).countP Call.isSendError = 0 ∧
    (demoAgent.Run answeringWorld).1 = none :=
  have h : (demoAgent.analyzer.AnalyzeNews (demoAgent.collect answeringWorld).2
      (demoAgent.collect answeringWorld).1).1 = Except.ok
        { WeekRange := "Jan 02 - Jan 02, 2006".toList
          TotalArticles := 3
          Summary := demoCompletion
          KeyTopics := ["Chips".toList, "Quantum computing".toList]
          TrendingStories := ["Fab opens".toList, "Qubit record".toList, "Carbon pledge".toList]
          GeneratedAt := { reading := 0, days := 0 } } := by decide!
  ⟨⟨_, h⟩, (Run_analysis_ok demoAgent answeringWorld _ h).1,
    (Run_analysis_ok demoAgent answeringWorld _ h).2.1, by decide!⟩

/-! ## `FetchWeeklyNews`: partial failure -/

/-- The loop of `FetchWeeklyNews` appends to `allArticles` the articles of the fetches that
succeeded, in the order of the categories. -/
theorem fetchLoop_fst (nc : NewsCollector) (categories : List GoString) :
    ∀ (allArticles : List Article) (w : World),
      (nc.fetchLoop categories allArticles w).1 =
        allArticles ++ obtainedArticles (fetchOutcomes w.newsAPI w.queried categories) := by
  induction categories with
  | nil => intro allArticles w; simp [NewsCollector.fetchLoop, fetchOutcomes, obtainedArticles]
  | cons category categories ih =>
    intro allArticles w
    unfold NewsCollector.fetchLoop NewsCollector.fetchByCategory
    simp only [fetchOutcomes]
    cases w.newsAPI w.queried category with
    | error e => simp only [obtainedArticles]; rw [ih]
    | ok articles => simp only [obtainedArticles]; rw [ih, List.append_assoc]

/-- The result of `FetchWeeklyNews` in terms of the outcomes of the per-category fetches. -/
theorem FetchWeeklyNews_fst (nc : NewsCollector) (w : World) (categories : List GoString) :
    (nc.FetchWeeklyNews w categories).1 =
      if (obtainedArticles (fetchOutcomes w.newsAPI w.queried categories)).length = 0 then
        Except.error "no articles found".toList
      else Except.ok (obtainedArticles (fetchOutcomes w.newsAPI w.queried categories)) := by
  unfold NewsCollector.FetchWeeklyNews
  simp only [fetchLoop_fst, List.nil_append, World.record]
  split <;> rfl

theorem length_le_obtainedArticles (articles : List Article) :
    ∀ outcomes : List (Except Error (List Article)), Except.ok articles ∈ outcomes →
      articles.length ≤ (obtainedArticles outcomes).length := by
  intro outcomes
  induction outcomes with
  | nil => intro h; cases h
  | cons o outcomes ih =>
    intro h
    cases o with
    | error e =>
      simp only [obtainedArticles]
      rcases List.mem_cons.1 h with h | h
      · cases h
      · exact ih h
    | ok as =>
      simp only [obtainedArticles, List.length_append]
      rcases List.mem_cons.1 h with h | h
      · cases h; omega
      · have := ih h; omega

/-- C9. `FetchWeeklyNews` returns an error exactly when the fetches that succeeded yielded no
article in total (as with an empty category list); otherwise it returns, without error, the
articles of the fetches that succeeded, concatenated in category order, the failed categories
being skipped. -/
theorem FetchWeeklyNews_error_iff_no_articles (nc : NewsCollector) (w : World)
    (categories : List GoString) :
    ((∃ e, (nc.FetchWeeklyNews w categories).1 = Except.error e) ↔
      (obtainedArticles (fetchOutcomes w.newsAPI w.queried categories)).length = 0) ∧
    (nc.FetchWeeklyNews w categories).1 =
      (if (obtainedArticles (fetchOutcomes w.newsAPI w.queried categories)).length = 0 then
        Except.error "no articles found".toList
      else Except.ok (obtainedArticles (fetchOutcomes w.newsAPI w.queried categories))) ∧
    (nc.FetchWeeklyNews w []).1 = Except.error "no articles found".toList := by
  refine ⟨?_, FetchWeeklyNews_fst nc w categories, ?_⟩
  · rw [FetchWeeklyNews_fst]
    split
    · simp [*]
    · simp [*]
  · rw [FetchWeeklyNews_fst]; rfl

/-- C10, as stated, fails: the only category is fetched without error, with no article in the
answer, and `FetchWeeklyNews` returns an error. -/
theorem FetchWeeklyNews_error_despite_success :
    fetchOutcomes emptyNewsWorld.newsAPI emptyNewsWorld.queried ["technology".toList] =
      [Except.ok []] ∧
    (demoAgent.collector.FetchWeeklyNews emptyNewsWorld ["technology".toList]).1 =
      Except.error "no articles found".toList := by
  decide

/-- C10, amended. Whenever the fetch of at least one category succeeds with at least one
article, `FetchWeeklyNews` returns without error, and what it returns is not empty. -/
theorem FetchWeeklyNews_ok_of_article (nc : NewsCollector) (w : World)
    (categories : List GoString) (articles : List Article)
    (hok : Except.ok articles ∈ fetchOutcomes w.newsAPI w.queried categories)
    (hne : articles ≠ []) :
    ∃ allArticles, (nc.FetchWeeklyNews w categories).1 = Except.ok allArticles ∧
      allArticles ≠ [] := by
  have hlen := length_le_obtainedArticles articles _ hok
  have hpos : 0 < articles.length := List.length_pos.2 hne
  have hnz : (obtainedArticles (fetchOutcomes w.newsAPI w.queried categories)).length ≠ 0 := by
    omega
  refine ⟨obtainedArticles (fetchOutcomes w.newsAPI w.queried categories), ?_, ?_⟩
  · rw [FetchWeeklyNews_fst, if_neg hnz]
  · intro h; rw [h] at hnz; exact hnz rfl

/-- Witness for C10, amended: two categories fail and `science` yields one article. -/
theorem FetchWeeklyNews_ok_of_article_witness :
    fetchOutcomes partialNewsWorld.newsAPI partialNewsWorld.queried demoAgent.NewsCategories =
      [Except.error "status 500".toList, Except.ok [fabArticle],
        Except.error "status 500".toList] ∧
    (demoAgent.collector.FetchWeeklyNews partialNewsWorld demoAgent.NewsCategories).1 =
      Except.ok [fabArticle] ∧
    ∃ allArticles,
      (demoAgent.collector.FetchWeeklyNews partialNewsWorld demoAgent.NewsCategories).1 =
        Except.ok allArticles ∧ allArticles ≠ [] :=
  ⟨by decide, by decide,
    FetchWeeklyNews_ok_of_article demoAgent.collector partialNewsWorld demoAgent.NewsCategories
      [fabArticle] (by decide) (by decide)⟩

/-! ## `extractInsights`: the fallback lists -/

theorem captureStory_keyTopics (st : Insights) (line : GoString) :
    (captureStory st line).keyTopics = st.keyTopics := by
  unfold captureStory
  split
  · simp only []
    split <;> rfl
  · rfl

theorem captureStory_inKeyTopics (st : Insights) (line : GoString) :
    (captureStory st line).inKeyTopics = st.inKeyTopics := by
  unfold captureStory
  split
  · simp only []
    split <;> rfl
  · rfl

theorem captureTopic_inKeyTopics (st : Insights) (line : GoString) :
    (captureTopic st line).inKeyTopics = st.inKeyTopics := by
  unfold captureTopic
  split
  · simp only []
    split <;> rfl
  · rfl

theorem captureTopic_of_not_bullet (st : Insights) (line : GoString)
    (h : (st.inKeyTopics && hasBulletPrefix line) = false) : captureTopic st line = st := by
  unfold captureTopic
  simp [h]

/-- While no bullet line follows a topics marker line, the loop of `extractInsights` captures no
topic. -/
theorem foldl_extractLine_keyTopics (lines : List GoString) :
    ∀ (seen : Bool) (st : Insights), st.keyTopics = [] →
      (st.inKeyTopics = true → seen = true) →
      noBulletAfterMarker seen lines = true →
      (lines.foldl extractLine st).keyTopics = [] := by
  induction lines with
  | nil => intro seen st h _ _; exact h
  | cons line lines ih =>
    intro seen st hk hseen hno
    rw [List.foldl_cons]
    unfold noBulletAfterMarker at hno
    by_cases hm : isTopicsMarker (TrimSpace line) = true
    · rw [if_pos hm] at hno
      apply ih true _ _ _ hno
      · simp [extractLine, hm, hk]
      · intro _; rfl
    · rw [if_neg hm] at hno
      simp only [Bool.and_eq_true, Bool.not_eq_true'] at hno
      obtain ⟨hnb, hrest⟩ := hno
      by_cases hs : isStoriesMarker (TrimSpace line) = true
      · apply ih seen _ _ _ hrest
        · simp [extractLine, hm, hs, hk]
        · simp [extractLine, hm, hs]
      · by_cases hb : (TrimSpace line = [] ∨ HasPrefix (TrimSpace line) "#".toList = true)
        · have hstep : extractLine st line = st := by
            simp only [extractLine, hm, hs, Bool.false_eq_true, if_false, hb, if_true]
          rw [hstep]
          exact ih seen st hk hseen hrest
        · have hcap : (st.inKeyTopics && hasBulletPrefix (TrimSpace line)) = false := by
            cases hin : st.inKeyTopics with
            | false => rfl
            | true =>
              have := hseen hin
              subst this
              simpa using hnb
          have hstep : extractLine st line = captureStory st (TrimSpace line) := by
            simp only [extractLine, hm, hs, Bool.false_eq_true, if_false, hb,
              captureTopic_of_not_bullet st _ hcap]
          rw [hstep]
          apply ih seen _ _ _ hrest
          · rw [captureStory_keyTopics]; exact hk
          · rw [captureStory_inKeyTopics]; exact hseen

/-- C8. For every narrative text, both lists returned by `extractInsights` are non-empty.  When
the loop extracted no topic, the key topics are the three fixed generic topics, and this is the
case whenever no bullet line follows a "key topics" or "main topics" marker line.  When the loop
extracted no story, the trending stories are the three fixed generic stories. -/
theorem extractInsights_fallback (summary : GoString) :
    (extractInsights summary).1 ≠ [] ∧ (extractInsights summary).2 ≠ [] ∧
    ((extractLines summary).keyTopics = [] →
      (extractInsights summary).1 =
        ["Artificial Intelligence".toList, "Cloud Computing".toList, "Cybersecurity".toList]) ∧
    (noBulletAfterMarker false (Split '\n' summary) = true →
      (extractInsights summary).1 =
        ["Artificial Intelligence".toList, "Cloud Computing".toList, "Cybersecurity".toList]) ∧
    ((extractLines summary).trendingStories = [] →
      (extractInsights summary).2 =
        ["Major tech industry developments".toList, "Innovation breakthroughs".toList,
          "Market trends".toList]) := by
  have htop : (extractLines summary).keyTopics = [] →
      (extractInsights summary).1 = fallbackTopics := by
    intro h; simp [extractInsights, h]
  refine ⟨?_, ?_, htop, ?_, ?_⟩
  · unfold extractInsights
    simp only []
    split
    · decide
    · intro h; simp_all
  · unfold extractInsights
    simp only []
    split
    · decide
    · intro h; simp_all
  · intro h
    apply htop
    exact foldl_extractLine_keyTopics _ false _ rfl (by intro h; cases h) h
  · intro h; simp [extractInsights, h, fallbackStories]

/-- Witness for C8: a narrative with a topics marker line, no bullet line and no story. -/
theorem extractInsights_fallback_witness :
    noBulletAfterMarker false (Split '\n' plainNarrative) = true ∧
    (extractLines plainNarrative).trendingStories = [] ∧
    (extractInsights plainNarrative).1 =
      ["Artificial Intelligence".toList, "Cloud Computing".toList, "Cybersecurity".toList] ∧
    (extractInsights plainNarrative).2 =
      ["Major tech industry developments".toList, "Innovation breakthroughs".toList,
        "Market trends".toList] :=
  ⟨by decide!, by decide!,
    (extractInsights_fallback plainNarrative).2.2.2.1 (by decide!),
    (extractInsights_fallback plainNarrative).2.2.2.2 (by decide!)⟩

/-! ## Trimming, prefixes and keywords -/

theorem trimRight_cons_nil (c : Char) (s : GoString) (hs : trimRight s = []) :
    trimRight (c :: s) = if isSpace c = true then [] else [c] := by
  rw [trimRight, hs]

theorem trimRight_cons_of_ne_nil (c : Char) (s : GoString) (hs : trimRight s ≠ []) :
    trimRight (c :: s) = c :: trimRight s := by
  rw [trimRight]
  cases hr : trimRight s with
  | nil => exact absurd hr hs
  | cons d r => rfl

theorem trimRight_cons_of_not_isSpace (c : Char) (s : GoString) (hc : isSpace c = false) :
    trimRight (c :: s) = c :: trimRight s := by
  by_cases hs : trimRight s = []
  · rw [trimRight_cons_nil c s hs, hs]; simp [hc]
  · exact trimRight_cons_of_ne_nil c s hs

theorem trimRight_eq_nil_iff (s : GoString) : trimRight s = [] ↔ ∀ c ∈ s, isSpace c = true := by
  induction s with
  | nil => simp [trimRight]
  | cons c s ih =>
    by_cases hs : trimRight s = []
    · have hall := ih.1 hs
      rw [trimRight_cons_nil c s hs]
      by_cases hc : isSpace c = true
      · simp only [hc, if_true, List.mem_cons, forall_eq_or_imp, true_and, true_iff]
        exact hall
      · simp [hc]
    · rw [trimRight_cons_of_ne_nil c s hs]
      have hnot : ¬ ∀ c ∈ s, isSpace c = true := fun h => hs (ih.2 h)
      simp only [List.mem_cons, forall_eq_or_imp]
      constructor
      · intro h; cases h
      · intro h; exact absurd h.2 hnot

theorem trimRight_idem (s : GoString) : trimRight (trimRight s) = trimRight s := by
  induction s with
  | nil => rfl
  | cons c s ih =>
    by_cases hs : trimRight s = []
    · by_cases hc : isSpace c = true
      · have : trimRight (c :: s) = [] := by rw [trimRight_cons_nil c s hs]; simp [hc]
        rw [this]; rfl
      · have : trimRight (c :: s) = [c] := by rw [trimRight_cons_nil c s hs]; simp [hc]
        rw [this, trimRight_cons_nil c [] rfl]; simp [hc]
    · rw [trimRight_cons_of_ne_nil c s hs,
        trimRight_cons_of_ne_nil c (trimRight s) (by rw [ih]; exact hs), ih]

theorem trimLeft_trimRight (s : GoString) : trimLeft (trimRight s) = trimRight (trimLeft s) := by
  induction s with
  | nil => rfl
  | cons c s ih =>
    by_cases hc : isSpace c = true
    · have hl : trimLeft (c :: s) = trimLeft s := by simp [trimLeft, hc]
      rw [hl, ← ih]
      by_cases hs : trimRight s = []
      · have : trimRight (c :: s) = [] := by rw [trimRight_cons_nil c s hs]; simp [hc]
        rw [this, hs]
      · rw [trimRight_cons_of_ne_nil c s hs]
        simp [trimLeft, hc]
    · have hc' : isSpace c = false := by simpa using hc
      have hl : trimLeft (c :: s) = c :: s := by simp [trimLeft, hc']
      rw [hl, trimRight_cons_of_not_isSpace c s hc']
      simp [trimLeft, hc']

theorem mem_of_mem_trimLeft (s : GoString) (c : Char) : c ∈ trimLeft s → c ∈ s := by
  induction s with
  | nil => intro h; exact h
  | cons d s ih =>
    unfold trimLeft
    split
    · intro h; exact List.mem_cons_of_mem _ (ih h)
    · intro h; exact h

theorem trimRight_ne_nil_of_TrimSpace (s : GoString) (h : TrimSpace s ≠ []) :
    trimRight s ≠ [] := by
  intro hr
  apply h
  unfold TrimSpace
  rw [trimRight_eq_nil_iff] at hr ⊢
  intro c hc
  exact hr c (mem_of_mem_trimLeft s c hc)

/-- The trimmed form of a line that starts with a character that is no space, then a space,
then a text that is not blank. -/
theorem TrimSpace_marked (m : Char) (b : GoString) (hm : isSpace m = false)
    (hb : TrimSpace b ≠ []) : TrimSpace (m :: ' ' :: b) = m :: ' ' :: trimRight b := by
  unfold TrimSpace
  have hl : trimLeft (m :: ' ' :: b) = m :: ' ' :: b := by simp [trimLeft, hm]
  rw [hl, trimRight_cons_of_not_isSpace m _ hm,
    trimRight_cons_of_ne_nil ' ' b (trimRight_ne_nil_of_TrimSpace b hb)]

/-- Trimming what is left of such a line after its marker gives the trimmed text. -/
theorem TrimSpace_space_trimRight (b : GoString) : TrimSpace (' ' :: trimRight b) = TrimSpace b := by
  unfold TrimSpace
  have hl : trimLeft (' ' :: trimRight b) = trimLeft (trimRight b) := by
    simp [trimLeft, isSpace]
  rw [hl, trimLeft_trimRight, trimRight_idem]

theorem trimRight_append (s : GoString) : ∃ t, s = trimRight s ++ t := by
  induction s with
  | nil => exact ⟨[], rfl⟩
  | cons c s ih =>
    by_cases hs : trimRight s = []
    · by_cases hc : isSpace c = true
      · have : trimRight (c :: s) = [] := by rw [trimRight_cons_nil c s hs]; simp [hc]
        exact ⟨c :: s, by rw [this]; rfl⟩
      · have : trimRight (c :: s) = [c] := by rw [trimRight_cons_nil c s hs]; simp [hc]
        exact ⟨s, by rw [this]; rfl⟩
    · obtain ⟨t, ht⟩ := ih
      exact ⟨t, by rw [trimRight_cons_of_ne_nil c s hs, List.cons_append, ← ht]⟩

theorem HasPrefix_append (kw : GoString) :
    ∀ x y : GoString, HasPrefix x kw = true → HasPrefix (x ++ y) kw = true := by
  induction kw with
  | nil => intro x y _; cases x <;> cases y <;> rfl
  | cons k ks ih =>
    intro x y h
    cases x with
    | nil => simp [HasPrefix] at h
    | cons c x =>
      simp only [HasPrefix, Bool.and_eq_true] at h
      simp only [List.cons_append, HasPrefix, Bool.and_eq_true]
      exact ⟨h.1, ih x y h.2⟩

theorem Contains_append (kw : GoString) (hkw : kw ≠ []) :
    ∀ x y : GoString, Contains x kw = true → Contains (x ++ y) kw = true := by
  intro x
  induction x with
  | nil =>
    intro y h
    cases kw with
    | nil => exact absurd rfl hkw
    | cons k ks => simp [Contains, HasPrefix] at h
  | cons c x ih =>
    intro y h
    simp only [Contains, Bool.or_eq_true] at h
    simp only [List.cons_append, Contains, Bool.or_eq_true]
    rcases h with h | h
    · left; exact HasPrefix_append kw (c :: x) y h
    · right; exact ih y h

theorem Contains_cons_of_ne (k : Char) (ks : GoString) (c : Char) (s : GoString) (hc : c ≠ k) :
    Contains (c :: s) (k :: ks) = Contains s (k :: ks) := by
  simp [Contains, HasPrefix, hc]

/-- A keyword that starts with `k` does not occur in the lowered form of `p ++ trimRight b`
when no character of `p` is lowered to `k` and the keyword does not occur in the lowered `b`. -/
theorem Contains_lower_line (k : Char) (ks : GoString) (b : GoString)
    (hb : Contains (ToLower b) (k :: ks) = false) :
    ∀ p : GoString, (∀ c ∈ p, toLowerRune c ≠ k) →
      Contains (ToLower (p ++ trimRight b)) (k :: ks) = false := by
  intro p
  induction p with
  | nil =>
    intro _
    obtain ⟨t, ht⟩ := trimRight_append b
    cases hcon : Contains (ToLower ([] ++ trimRight b)) (k :: ks) with
    | false => rfl
    | true =>
      have := Contains_append (k :: ks) (by simp) (ToLower (trimRight b)) (ToLower t)
        (by simpa using hcon)
      have hmap : ToLower (trimRight b) ++ ToLower t = ToLower b := by
        unfold ToLower; rw [← List.map_append, ← ht]
      rw [hmap, hb] at this
      cases this
  | cons c p ih =>
    intro hp
    have hc : toLowerRune c ≠ k := hp c (List.mem_cons_self _ _)
    have := ih (fun d hd => hp d (List.mem_cons_of_mem _ hd))
    unfold ToLower at this ⊢
    rw [List.cons_append, List.map_cons, Contains_cons_of_ne k ks _ _ hc]
    exact this

/-- A line made of a prefix without `k`, `m` or `t` (in any case) and of the right-trimmed form
of a text without mode keyword is no marker line. -/
theorem not_marker_of_plain (p b : GoString) (hb : hasModeKeyword b = false)
    (hp : ∀ c ∈ p, toLowerRune c ≠ 'k' ∧ toLowerRune c ≠ 'm' ∧ toLowerRune c ≠ 't') :
    isTopicsMarker (p ++ trimRight b) = false ∧ isStoriesMarker (p ++ trimRight b) = false := by
  simp only [hasModeKeyword, isTopicsMarker, isStoriesMarker, Bool.or_eq_false_iff] at hb
  obtain ⟨⟨h1, h2⟩, h3, h4⟩ := hb
  have e1 := Contains_lower_line 'k' "ey topics".toList b h1 p (fun c hc => (hp c hc).1)
  have e2 := Contains_lower_line 'm' "ain topics".toList b h2 p (fun c hc => (hp c hc).2.1)
  have e3 := Contains_lower_line 't' "rending".toList b h3 p (fun c hc => (hp c hc).2.2)
  have e4 := Contains_lower_line 't' "op".toList b h4 p (fun c hc => (hp c hc).2.2)
  simp only [isTopicsMarker, isStoriesMarker, Bool.or_eq_false_iff]
  exact ⟨⟨e1, e2⟩, e3, e4⟩

/-! ## `extractInsights`: a text with the two sections -/

theorem Split_of_not_mem (sep : Char) (a : GoString) (h : sep ∉ a) : Split sep a = [a] := by
  induction a with
  | nil => rfl
  | cons c a ih =>
    have hc : c ≠ sep := fun e => h (e ▸ List.mem_cons_self _ _)
    have ha : sep ∉ a := fun e => h (List.mem_cons_of_mem _ e)
    rw [Split, if_neg hc, ih ha]

theorem Split_append_sep (sep : Char) (a b : GoString) (h : sep ∉ a) :
    Split sep (a ++ sep :: b) = a :: Split sep b := by
  induction a with
  | nil => simp [Split]
  | cons c a ih =>
    have hc : c ≠ sep := fun e => h (e ▸ List.mem_cons_self _ _)
    have ha : sep ∉ a := fun e => h (List.mem_cons_of_mem _ e)
    rw [List.cons_append, Split, if_neg hc, ih ha]

theorem isPlainItem_iff (text : GoString) :
    isPlainItem text = true ↔
      '\n' ∉ text ∧ TrimSpace text ≠ [] ∧ hasModeKeyword text = false := by
  simp [isPlainItem, and_assoc]

/-- The heading "## Key Topics" opens topic-collection mode. -/
theorem extractLine_topicsHeading (st : Insights) :
    extractLine st "## Key Topics".toList =
      { st with inKeyTopics := true, inTrendingStories := false } := by
  have h : isTopicsMarker (TrimSpace "## Key Topics".toList) = true := by decide!
  simp only [extractLine, h, if_true]

/-- The heading "## Trending Stories" opens story-collection mode. -/
theorem extractLine_storiesHeading (st : Insights) :
    extractLine st "## Trending Stories".toList =
      { st with inTrendingStories := true, inKeyTopics := false } := by
  have h1 : isTopicsMarker (TrimSpace "## Trending Stories".toList) = false := by decide!
  have h2 : isStoriesMarker (TrimSpace "## Trending Stories".toList) = true := by decide!
  simp only [extractLine, h1, h2, if_true, Bool.false_eq_true, if_false]

/-- In topic-collection mode, a bullet line with a plain text is captured as that text,
trimmed. -/
theorem extractLine_bullet (st : Insights) (m : Char) (b : GoString)
    (hm : m = '-' ∨ m = '*') (hb : isPlainItem b = true)
    (hin : st.inKeyTopics = true) (hst : st.inTrendingStories = false)
    (hlen : st.keyTopics.length < 5) :
    extractLine st (m :: ' ' :: b) = { st with keyTopics := st.keyTopics ++ [TrimSpace b] } := by
  obtain ⟨_, hne, hkw⟩ := (isPlainItem_iff b).1 hb
  have hsp : isSpace m = false := by rcases hm with rfl | rfl <;> decide
  have hmark := not_marker_of_plain [m, ' '] b hkw (by
    intro c hc
    simp only [List.mem_cons, List.mem_singleton, List.not_mem_nil, or_false] at hc
    rcases hc with rfl | rfl
    · rcases hm with rfl | rfl <;> decide
    · decide)
  have htrim := TrimSpace_marked m b hsp hne
  have hline : [m, ' '] ++ trimRight b = m :: ' ' :: trimRight b := rfl
  rw [hline] at hmark
  have hrest := TrimSpace_space_trimRight b
  unfold extractLine
  simp only [htrim, hmark.1, hmark.2, Bool.false_eq_true, if_false]
  rcases hm with rfl | rfl
  · simp [captureTopic, captureStory, hin, hst, hasBulletPrefix, HasPrefix, trimBullets,
      TrimPrefix, bulletGlyph, hrest, hne, hlen]
  · simp [captureTopic, captureStory, hin, hst, hasBulletPrefix, HasPrefix, trimBullets,
      TrimPrefix, bulletGlyph, hrest, hne, hlen]

/-- In story-collection mode, a line "1. text", "2. text" or "3. text" with a plain text is
captured as that text, trimmed. -/
theorem extractLine_story (st : Insights) (d : Char) (s : GoString)
    (hd : d = '1' ∨ d = '2' ∨ d = '3') (hs : isPlainItem s = true)
    (hin : st.inKeyTopics = false) (hst : st.inTrendingStories = true)
    (hlen : st.trendingStories.length < 3) :
    extractLine st (d :: '.' :: ' ' :: s) =
      { st with trendingStories := st.trendingStories ++ [TrimSpace s] } := by
  obtain ⟨_, hne, hkw⟩ := (isPlainItem_iff s).1 hs
  have hsp : isSpace d = false := by rcases hd with rfl | rfl | rfl <;> decide
  have hmark := not_marker_of_plain [d, '.', ' '] s hkw (by
    intro c hc
    simp only [List.mem_cons, List.mem_singleton, List.not_mem_nil, or_false] at hc
    rcases hc with rfl | rfl | rfl
    · rcases hd with rfl | rfl | rfl <;> decide
    · decide
    · decide)
  have htrim : TrimSpace (d :: '.' :: ' ' :: s) = d :: '.' :: ' ' :: trimRight s := by
    unfold TrimSpace
    have hl : trimLeft (d :: '.' :: ' ' :: s) = d :: '.' :: ' ' :: s := by simp [trimLeft, hsp]
    rw [hl, trimRight_cons_of_not_isSpace d _ hsp,
      trimRight_cons_of_not_isSpace '.' _ (by decide),
      trimRight_cons_of_ne_nil ' ' s (trimRight_ne_nil_of_TrimSpace s hne)]
  have hline : [d, '.', ' '] ++ trimRight s = d :: '.' :: ' ' :: trimRight s := rfl
  rw [hline] at hmark
  have hrest := TrimSpace_space_trimRight s
  unfold extractLine
  simp only [htrim, hmark.1, hmark.2, Bool.false_eq_true, if_false]
  rcases hd with rfl | rfl | rfl
  · simp [captureTopic, captureStory, hin, hst, hasBulletPrefix, HasPrefix, trimBullets,
      TrimPrefix, bulletGlyph, stripNumber, startsWithDigit, SplitN2, hrest, hne, hlen]
  · simp [captureTopic, captureStory, hin, hst, hasBulletPrefix, HasPrefix, trimBullets,
      TrimPrefix, bulletGlyph, stripNumber, startsWithDigit, SplitN2, hrest, hne, hlen]
  · simp [captureTopic, captureStory, hin, hst, hasBulletPrefix, HasPrefix, trimBullets,
      TrimPrefix, bulletGlyph, stripNumber, startsWithDigit, SplitN2, hrest, hne, hlen]

/-- The lines of a sectioned completion text are the seven lines it was made of. -/
theorem Split_sectionedCompletion (m1 : Char) (b1 : GoString) (m2 : Char) (b2 s1 s2 s3 : GoString)
    (hm1 : m1 = '-' ∨ m1 = '*') (hm2 : m2 = '-' ∨ m2 = '*')
    (hb1 : '\n' ∉ b1) (hb2 : '\n' ∉ b2) (hs1 : '\n' ∉ s1) (hs2 : '\n' ∉ s2) (hs3 : '\n' ∉ s3) :
    Split '\n' (sectionedCompletion m1 b1 m2 b2 s1 s2 s3) =
      ["## Key Topics".toList, m1 :: ' ' :: b1, m2 :: ' ' :: b2, "## Trending Stories".toList,
        '1' :: '.' :: ' ' :: s1, '2' :: '.' :: ' ' :: s2, '3' :: '.' :: ' ' :: s3] := by
  have hn1 : '\n' ∉ m1 :: ' ' :: b1 := by
    rcases hm1 with rfl | rfl <;> simp [hb1]
  have hn2 : '\n' ∉ m2 :: ' ' :: b2 := by
    rcases hm2 with rfl | rfl <;> simp [hb2]
  have hk : '\n' ∉ "## Key Topics".toList := by decide
  have ht : '\n' ∉ "## Trending Stories".toList := by decide
  have h1 : '\n' ∉ '1' :: '.' :: ' ' :: s1 := by simp [hs1]
  have h2 : '\n' ∉ '2' :: '.' :: ' ' :: s2 := by simp [hs2]
  have h3 : '\n' ∉ '3' :: '.' :: ' ' :: s3 := by simp [hs3]
  have e1 : "1. ".toList ++ s1 = '1' :: '.' :: ' ' :: s1 := rfl
  have e2 : "2. ".toList ++ s2 = '2' :: '.' :: ' ' :: s2 := rfl
  have e3 : "3. ".toList ++ s3 = '3' :: '.' :: ' ' :: s3 := rfl
  unfold sectionedCompletion
  rw [e1, e2, e3]
  simp only [Join]
  rw [Split_append_sep _ _ _ hk, Split_append_sep _ _ _ hn1, Split_append_sep _ _ _ hn2,
    Split_append_sep _ _ _ ht, Split_append_sep _ _ _ h1, Split_append_sep _ _ _ h2,
    Split_of_not_mem _ _ h3]

/-- What `extractInsights` returns for a sectioned completion text with plain items. -/
theorem extractInsights_sectionedCompletion (m1 : Char) (b1 : GoString) (m2 : Char)
    (b2 s1 s2 s3 : GoString) (hm1 : m1 = '-' ∨ m1 = '*') (hm2 : m2 = '-' ∨ m2 = '*')
    (hb1 : isPlainItem b1 = true) (hb2 : isPlainItem b2 = true) (hs1 : isPlainItem s1 = true)
    (hs2 : isPlainItem s2 = true) (hs3 : isPlainItem s3 = true) :
    extractInsights (sectionedCompletion m1 b1 m2 b2 s1 s2 s3) =
      ([TrimSpace b1, TrimSpace b2], [TrimSpace s1, TrimSpace s2, TrimSpace s3]) := by
  have hsplit := Split_sectionedCompletion m1 b1 m2 b2 s1 s2 s3 hm1 hm2
    ((isPlainItem_iff b1).1 hb1).1 ((isPlainItem_iff b2).1 hb2).1 ((isPlainItem_iff s1).1 hs1).1
    ((isPlainItem_iff s2).1 hs2).1 ((isPlainItem_iff s3).1 hs3).1
  have hloop : extractLines (sectionedCompletion m1 b1 m2 b2 s1 s2 s3) =
      { keyTopics := [TrimSpace b1, TrimSpace b2],
        trendingStories := [TrimSpace s1, TrimSpace s2, TrimSpace s3],
        inKeyTopics := false, inTrendingStories := true } := by
    unfold extractLines
    rw [hsplit]
    simp only [List.foldl_cons, List.foldl_nil]
    rw [extractLine_topicsHeading,
      extractLine_bullet _ m1 b1 hm1 hb1,
      extractLine_bullet _ m2 b2 hm2 hb2,
      extractLine_storiesHeading,
      extractLine_story _ '1' s1 (Or.inl rfl) hs1,
      extractLine_story _ '2' s2 (Or.inr (Or.inl rfl)) hs2,
      extractLine_story _ '3' s3 (Or.inr (Or.inr rfl)) hs3]
    all_goals first | rfl | simp
  unfold extractInsights
  rw [hloop]
  rfl

/-- The summary returned by `AnalyzeNews` when the completion service answers: its narrative is
the first part of the first candidate, and its lists are those of `extractInsights`. -/
theorem AnalyzeNews_of_answer (a : AIAnalyzer) (w : World) (articles : List Article)
    (text : GoString) (parts : List GoString) (candidates : GenerateContentResponse)
    (hne : articles ≠ [])
    (hgen : w.gemini w.prompts a.model (buildPrompt articles) =
      Except.ok ((text :: parts) :: candidates)) :
    ∃ summary, (a.AnalyzeNews w articles).1 = Except.ok summary ∧
      summary.Summary = text ∧ summary.TotalArticles = articles.length ∧
      summary.KeyTopics = (extractInsights text).1 ∧
      summary.TrendingStories = (extractInsights text).2 := by
  have hlen : ¬ articles.length = 0 := fun h => hne (List.length_eq_zero.1 h)
  unfold AIAnalyzer.AnalyzeNews AIAnalyzer.GenerateContent
  simp only [hlen, if_false, World.record, hgen]
  exact ⟨_, rfl, rfl, rfl, rfl, rfl⟩

/-- C7, as stated, fails: with the bullet texts "Laptops" and "Quantum computing", the first
bullet contains "top" and switches to story-collection mode, so no topic is captured, the key
topics are the three generic topics, and the second bullet is taken for a story. -/
theorem extractInsights_keyword_in_bullet :
    laptopsCompletion =
      "## Key Topics\n- Laptops\n- Quantum computing\n## Trending Stories\n1. Fab opens\n2. Qubit record\n3. Carbon pledge".toList ∧
    (extractInsights laptopsCompletion).1 =
      ["Artificial Intelligence".toList, "Cloud Computing".toList, "Cybersecurity".toList] ∧
    (extractInsights laptopsCompletion).2 =
      ["Quantum computing".toList, "Fab opens".toList, "Qubit record".toList] ∧
    (extractInsights laptopsCompletion).1 ≠ ["Laptops".toList, "Quantum computing".toList] ∧
    (extractInsights laptopsCompletion).2 ≠
      ["Fab opens".toList, "Qubit record".toList, "Carbon pledge".toList] := by
  decide!

/-- C7, amended. Take a completion text made of a "## Key Topics" heading, two bullet lines
"- text" or "* text", a "## Trending Stories" heading and the lines "1. s1", "2. s2", "3. s3",
where each of the five texts holds on one line, is not blank and contains none of the keywords
"key topics", "main topics", "trending", "top" in any letter case.  Then `extractInsights` yields
the two bullet texts, trimmed, as key topics and `s1`, `s2`, `s3`, trimmed, as trending stories;
and so does the summary returned by `AnalyzeNews` when the completion service answers with that
text for a non-empty list of articles. -/
theorem extractInsights_sections (m1 : Char) (b1 : GoString) (m2 : Char)
    (b2 s1 s2 s3 : GoString) (hm1 : m1 = '-' ∨ m1 = '*') (hm2 : m2 = '-' ∨ m2 = '*')
    (hb1 : isPlainItem b1 = true) (hb2 : isPlainItem b2 = true) (hs1 : isPlainItem s1 = true)
    (hs2 : isPlainItem s2 = true) (hs3 : isPlainItem s3 = true) :
    extractInsights (sectionedCompletion m1 b1 m2 b2 s1 s2 s3) =
      ([TrimSpace b1, TrimSpace b2], [TrimSpace s1, TrimSpace s2, TrimSpace s3]) ∧
    ∀ (a : AIAnalyzer) (w : World) (articles : List Article) (parts : List GoString)
      (candidates : GenerateContentResponse), articles ≠ [] →
      w.gemini w.prompts a.model (buildPrompt articles) =
        Except.ok ((sectionedCompletion m1 b1 m2 b2 s1 s2 s3 :: parts) :: candidates) →
      ∃ summary, (a.AnalyzeNews w articles).1 = Except.ok summary ∧
        summary.KeyTopics = [TrimSpace b1, TrimSpace b2] ∧
        summary.TrendingStories = [TrimSpace s1, TrimSpace s2, TrimSpace s3] := by
  have hex := extractInsights_sectionedCompletion m1 b1 m2 b2 s1 s2 s3 hm1 hm2 hb1 hb2 hs1 hs2 hs3
  refine ⟨hex, ?_⟩
  intro a w articles parts candidates hne hgen
  obtain ⟨summary, hsum, _, _, hk, ht⟩ :=
    AnalyzeNews_of_answer a w articles _ parts candidates hne hgen
  exact ⟨summary, hsum, by rw [hk, hex], by rw [ht, hex]⟩

/-- Witness for C7, amended: the bullets "- Chips" and "* Quantum computing" and the stories
"Fab opens", "Qubit record", "Carbon pledge". -/
theorem extractInsights_sections_witness :
    sectionedCompletion '-' "Chips".toList '*' "Quantum computing".toList "Fab opens".toList
        "Qubit record".toList "Carbon pledge".toList = demoCompletion ∧
    extractInsights demoCompletion =
      (["Chips".toList, "Quantum computing".toList],
        ["Fab opens".toList, "Qubit record".toList, "Carbon pledge".toList]) ∧
    extractInsights (sectionedCompletion '-' "Chips".toList '*' "Quantum computing".toList
        "Fab opens".toList "Qubit record".toList "Carbon pledge".toList) =
      ([TrimSpace "Chips".toList, TrimSpace "Quantum computing".toList],
        [TrimSpace "Fab opens".toList, TrimSpace "Qubit record".toList,
          TrimSpace "Carbon pledge".toList]) :=
  ⟨by decide!, by decide!,
    (extractInsights_sections '-' "Chips".toList '*' "Quantum computing".toList
      "Fab opens".toList "Qubit record".toList "Carbon pledge".toList (Or.inl rfl) (Or.inr rfl)
      (by decide!) (by decide!) (by decide!) (by decide!) (by decide!)).1⟩

/-! ## `config.Load`: the optional settings -/

/-- What `Load` returns when the four required settings are valid: the schedule and the model
are the defaults when the variable is set and not empty, and empty when it is not. -/
theorem Load_of_required (env : Environ) (chatID : Int)
    (hchat : parseInt64 "strconv.ParseInt".toList (Getenv env "TELEGRAM_CHAT_ID".toList) =
      Except.ok chatID)
    (hnz : chatID ≠ 0) (hg : Getenv env "GEMINI_API_KEY".toList ≠ [])
    (ht : Getenv env "TELEGRAM_BOT_TOKEN".toList ≠ [])
    (hn : Getenv env "NEWS_API_KEY".toList ≠ []) :
    ∃ cfg, Load env = Except.ok cfg ∧
      cfg.CronSchedule =
        (if Getenv env "CRON_SCHEDULE".toList ≠ [] then "0 9 * * 1".toList else []) ∧
      cfg.GeminiModel =
        (if Getenv env "GEMINI_MODEL".toList ≠ [] then "gemini-2.5-flash".toList else []) := by
  unfold Load
  rw [hchat]
  simp only [Config.Validate, hg, ht, hn, hnz, if_false]
  refine ⟨_, rfl, ?_, ?_⟩
  · split_ifs <;> simp_all
  · split_ifs <;> simp_all

/-- C11, the code at two environments with valid required settings.  With `CRON_SCHEDULE` set
to "30 6 * * *" and `GEMINI_MODEL` set to "gemini-pro", the loaded schedule and model are the
defaults "0 9 * * 1" and "gemini-2.5-flash", not the values of the environment.  With both
variables unset, the loaded schedule and model are empty, not the defaults. -/
theorem Load_inverts_defaults :
    Getenv customEnv "CRON_SCHEDULE".toList = "30 6 * * *".toList ∧
    Getenv customEnv "GEMINI_MODEL".toList = "gemini-pro".toList ∧
    Load customEnv = Except.ok
      { GeminiAPIKey := "g-key".toList
        TelegramBotToken := "t-token".toList
        TelegramChatID := 42
        NewsAPIKey := "n-key".toList
        CronSchedule := "0 9 * * 1".toList
        MaxNewsArticles := 20
        GeminiModel := "gemini-2.5-flash".toList
        NewsCategories := ["technology".toList, "science".toList, "business".toList] } ∧
    Getenv requiredEnv "CRON_SCHEDULE".toList = [] ∧
    Getenv requiredEnv "GEMINI_MODEL".toList = [] ∧
    Load requiredEnv = Except.ok
      { GeminiAPIKey := "g-key".toList
        TelegramBotToken := "t-token".toList
        TelegramChatID := 42
        NewsAPIKey := "n-key".toList
        CronSchedule := []
        MaxNewsArticles := 20
        GeminiModel := []
        NewsCategories := ["technology".toList, "science".toList, "business".toList] } := by
  decide!

/-! ## `extractInsights`: the capture of key topics -/

theorem markers_of_hasModeKeyword (line : GoString) (h : hasModeKeyword line = false) :
    isTopicsMarker line = false ∧ isStoriesMarker line = false := by
  simpa [hasModeKeyword] using h

/-- One iteration of the loop on a line without mode keyword. -/
theorem extractLine_of_no_keyword (st : Insights) (line : GoString)
    (hk : hasModeKeyword (TrimSpace line) = false) :
    extractLine st line =
      if TrimSpace line = [] ∨ HasPrefix (TrimSpace line) "#".toList = true then st
      else captureStory (captureTopic st (TrimSpace line)) (TrimSpace line) := by
  obtain ⟨h1, h2⟩ := markers_of_hasModeKeyword _ hk
  simp only [extractLine, h1, h2, Bool.false_eq_true, if_false]

theorem TrimPrefix_of_not_HasPrefix (s pre : GoString) (h : HasPrefix s pre = false) :
    TrimPrefix s pre = s := by
  simp [TrimPrefix, h]

/-- The capture of a key topic on a line that begins with "-". -/
theorem captureTopic_dash (st : Insights) (text : GoString) (hin : st.inKeyTopics = true)
    (hne : TrimSpace text ≠ []) (hstar : HasPrefix text "*".toList = false)
    (hglyph : HasPrefix text bulletGlyph = false) :
    captureTopic st ('-' :: text) =
      if st.keyTopics.length < 5 then { st with keyTopics := st.keyTopics ++ [TrimSpace text] }
      else st := by
  have hb : hasBulletPrefix ('-' :: text) = true := by simp [hasBulletPrefix, HasPrefix]
  have h1 : TrimPrefix ('-' :: text) "-".toList = text := by simp [TrimPrefix, HasPrefix]
  have htrim : trimBullets ('-' :: text) = text := by
    unfold trimBullets
    rw [h1, TrimPrefix_of_not_HasPrefix _ _ hstar, TrimPrefix_of_not_HasPrefix _ _ hglyph]
  simp only [captureTopic, hin, hb, Bool.and_self, if_true, htrim, ne_eq, hne, not_false_eq_true,
    true_and]

/-- The capture of a key topic on a line that begins with "*". -/
theorem captureTopic_star (st : Insights) (text : GoString) (hin : st.inKeyTopics = true)
    (hne : TrimSpace text ≠ []) (hglyph : HasPrefix text bulletGlyph = false) :
    captureTopic st ('*' :: text) =
      if st.keyTopics.length < 5 then { st with keyTopics := st.keyTopics ++ [TrimSpace text] }
      else st := by
  have hb : hasBulletPrefix ('*' :: text) = true := by simp [hasBulletPrefix, HasPrefix]
  have h1 : TrimPrefix ('*' :: text) "-".toList = '*' :: text := by simp [TrimPrefix, HasPrefix]
  have h2 : TrimPrefix ('*' :: text) "*".toList = text := by simp [TrimPrefix, HasPrefix]
  have htrim : trimBullets ('*' :: text) = text := by
    unfold trimBullets
    rw [h1, h2, TrimPrefix_of_not_HasPrefix _ _ hglyph]
  simp only [captureTopic, hin, hb, Bool.and_self, if_true, htrim, ne_eq, hne, not_false_eq_true,
    true_and]

/-- In topic-collection mode, a line that stands for a key topic is captured as that topic while
fewer than five topics have been captured, and dropped afterwards. -/
theorem extractLine_topicItem (st : Insights) (line topic : GoString)
    (hin : st.inKeyTopics = true) (ht : topicItem line = some topic) :
    (extractLine st line).keyTopics =
        (if st.keyTopics.length < 5 then st.keyTopics ++ [topic] else st.keyTopics) ∧
      (extractLine st line).inKeyTopics = true := by
  unfold topicItem at ht
  by_cases hk : hasModeKeyword (TrimSpace line) = true
  · simp [hk] at ht
  · have hk' : hasModeKeyword (TrimSpace line) = false := by simpa using hk
    rw [if_neg hk] at ht
    rw [extractLine_of_no_keyword st line hk']
    cases hT : TrimSpace line with
    | nil => rw [hT] at ht; simp at ht
    | cons m text =>
      rw [hT] at ht
      simp only [] at ht
      by_cases hm : m = '-'
      · subst hm
        rw [if_pos rfl] at ht
        by_cases hc : TrimSpace text ≠ [] ∧ HasPrefix text "*".toList = false ∧
            HasPrefix text bulletGlyph = false
        · rw [if_pos hc] at ht
          have htopic : TrimSpace text = topic := by simpa using ht
          have hnot : ¬ ('-' :: text = [] ∨ HasPrefix ('-' :: text) "#".toList = true) := by
            simp [HasPrefix]
          rw [if_neg hnot, captureStory_keyTopics, captureStory_inKeyTopics,
            captureTopic_inKeyTopics, captureTopic_dash st text hin hc.1 hc.2.1 hc.2.2, htopic]
          refine ⟨?_, hin⟩
          split <;> rfl
        · rw [if_neg hc] at ht; cases ht
      · rw [if_neg hm] at ht
        by_cases hs : m = '*'
        · subst hs
          rw [if_pos rfl] at ht
          by_cases hc : TrimSpace text ≠ [] ∧ HasPrefix text bulletGlyph = false
          · rw [if_pos hc] at ht
            have htopic : TrimSpace text = topic := by simpa using ht
            have hnot : ¬ ('*' :: text = [] ∨ HasPrefix ('*' :: text) "#".toList = true) := by
              simp [HasPrefix]
            rw [if_neg hnot, captureStory_keyTopics, captureStory_inKeyTopics,
              captureTopic_inKeyTopics, captureTopic_star st text hin hc.1 hc.2, htopic]
            refine ⟨?_, hin⟩
            split <;> rfl
          · rw [if_neg hc] at ht; cases ht
        · rw [if_neg hs] at ht; cases ht

/-- A line without mode keyword that begins with no bullet prefix leaves the key topics and the
mode alone. -/
theorem extractLine_of_no_bullet (st : Insights) (line : GoString)
    (hk : hasModeKeyword (TrimSpace line) = false)
    (hb : startsBullet (TrimSpace line) = false) :
    (extractLine st line).keyTopics = st.keyTopics ∧
      (extractLine st line).inKeyTopics = st.inKeyTopics := by
  have hbullet : hasBulletPrefix (TrimSpace line) = false := by
    simp only [startsBullet, Bool.or_eq_false_iff] at hb
    simp only [hasBulletPrefix, Bool.or_eq_false_iff]
    exact ⟨⟨hb.1.1.1, hb.1.1.2⟩, hb.2⟩
  rw [extractLine_of_no_keyword st line hk]
  split
  · exact ⟨rfl, rfl⟩
  · rw [captureStory_keyTopics, captureStory_inKeyTopics,
      captureTopic_of_not_bullet st _ (by simp [hbullet])]
    exact ⟨rfl, rfl⟩

/-- A line that begins with no bullet prefix stands for no key topic. -/
theorem topicItem_of_no_bullet (line : GoString) (hb : startsBullet (TrimSpace line) = false) :
    topicItem line = none := by
  unfold topicItem
  split
  · rfl
  · cases hT : TrimSpace line with
    | nil => rfl
    | cons m text =>
      rw [hT] at hb
      simp only [startsBullet, Bool.or_eq_false_iff] at hb
      have h1 : m ≠ '-' := by
        intro h; subst h
        have := hb.1.1.1
        simp [HasPrefix] at this
      have h2 : m ≠ '*' := by
        intro h; subst h
        have := hb.1.1.2
        simp [HasPrefix] at this
      simp only [h1, h2, if_false]

/-- The key topics after a run of lines in topic-collection mode, none of them a marker line,
each either standing for a key topic (markers "-" and "*") or beginning with no bullet prefix:
the topics captured before, followed by the topics of the lines in their order, cut after the
fifth. -/
theorem keyTopics_first_five (lines : List GoString) :
    ∀ st : Insights, st.inKeyTopics = true → st.keyTopics.length ≤ 5 →
      (∀ l ∈ lines, hasModeKeyword (TrimSpace l) = false ∧
        (topicItem l ≠ none ∨ startsBullet (TrimSpace l) = false)) →
      (lines.foldl extractLine st).keyTopics =
        (st.keyTopics ++ lines.filterMap topicItem).take 5 := by
  induction lines with
  | nil =>
    intro st _ hlen _
    simp [List.take_of_length_le hlen]
  | cons line lines ih =>
    intro st hin hlen hall
    have hline := hall line (List.mem_cons_self _ _)
    have hrest : ∀ l ∈ lines, hasModeKeyword (TrimSpace l) = false ∧
        (topicItem l ≠ none ∨ startsBullet (TrimSpace l) = false) :=
      fun l hl => hall l (List.mem_cons_of_mem _ hl)
    rw [List.foldl_cons]
    cases ht : topicItem line with
    | some topic =>
      obtain ⟨hkt, hin'⟩ := extractLine_topicItem st line topic hin ht
      by_cases hfull : st.keyTopics.length < 5
      · rw [if_pos hfull] at hkt
        rw [ih (extractLine st line) hin' (by rw [hkt]; simp; omega) hrest, hkt]
        simp [List.filterMap_cons, ht]
      · rw [if_neg hfull] at hkt
        have h5 : st.keyTopics.length = 5 := by omega
        rw [ih (extractLine st line) hin' (by rw [hkt]; exact hlen) hrest, hkt]
        rw [List.take_append_of_le_length (by omega),
          List.take_append_of_le_length (by omega)]
    | none =>
      have hb : startsBullet (TrimSpace line) = false := by
        rcases hline.2 with h | h
        · exact absurd ht h
        · exact h
      obtain ⟨hkt, hin'⟩ := extractLine_of_no_bullet st line hline.1 hb
      rw [ih (extractLine st line) (by rw [hin']; exact hin) (by rw [hkt]; exact hlen) hrest,
        hkt]
      simp [List.filterMap_cons, ht]

/-- The statement `keyTopics_first_five` at six bullet lines: the first five are the key topics,
in their order, and the sixth is dropped. -/
theorem keyTopics_first_five_example :
    (sixBullets.foldl extractLine topicMode).keyTopics =
        (topicMode.keyTopics ++ sixBullets.filterMap topicItem).take 5 ∧
      (topicMode.keyTopics ++ sixBullets.filterMap topicItem).take 5 =
        ["Chips".toList, "Quantum computing".toList, "Robots".toList, "Batteries".toList,
          "Fusion".toList] :=
  ⟨keyTopics_first_five sixBullets topicMode rfl (by decide) (by decide!), by decide!⟩

/-- C12, the code at lines marked with the bullet glyph.  The prefix that `extractInsights`
tests is not the glyph U+2022, so in topic-collection mode the line "• Chips", which contains no
mode keyword and has the text "Chips" after its marker, is not captured: the loop extracts no
topic from `glyphCompletion` and the key topics are the generic ones, where the same text with
"-" markers yields "Chips" and "Quantum computing". -/
theorem extractInsights_misses_glyph :
    bulletGlyph ≠ bulletPoint ∧
    HasPrefix "• Chips".toList bulletPoint = true ∧
    hasModeKeyword "• Chips".toList = false ∧
    hasBulletPrefix "• Chips".toList = false ∧
    extractLine topicMode "• Chips".toList = topicMode ∧
    (extractLines glyphCompletion).keyTopics = [] ∧
    (extractInsights glyphCompletion).1 =
      ["Artificial Intelligence".toList, "Cloud Computing".toList, "Cybersecurity".toList] ∧
    (extractInsights dashCompletion).1 = ["Chips".toList, "Quantum computing".toList] := by
  decide!

/-! ## `extractInsights`: the capture of trending stories -/

theorem SplitN2_append_sep (sep : Char) (a b : GoString) (h : sep ∉ a) :
    SplitN2 sep (a ++ sep :: b) = [a, b] := by
  induction a with
  | nil => simp [SplitN2]
  | cons c a ih =>
    have hc : c ≠ sep := fun e => h (e ▸ List.mem_cons_self _ _)
    have ha : sep ∉ a := fun e => h (List.mem_cons_of_mem _ e)
    rw [List.cons_append, SplitN2, if_neg hc, ih ha]

/-- On a line made of decimal digits, a dot and a text, `stripNumber` leaves the text. -/
theorem stripNumber_numbered (d : Char) (digits text : GoString)
    (hd : '0' ≤ d ∧ d ≤ '9') (hdigits : ∀ c ∈ digits, '0' ≤ c ∧ c ≤ '9') :
    stripNumber (d :: digits ++ '.' :: text) = text := by
  have hstart : startsWithDigit (d :: digits ++ '.' :: text) = true := by
    simp [startsWithDigit, hd.1, hd.2]
  have hdot : '.' ∉ d :: digits := by
    intro hmem
    rcases List.mem_cons.1 hmem with h | h
    · rw [← h] at hd; exact absurd hd.1 (by decide)
    · exact absurd (hdigits _ h).1 (by decide)
  unfold stripNumber
  rw [if_pos hstart, SplitN2_append_sep '.' (d :: digits) text hdot]

/-- In story-collection mode, with fewer than three stories captured, a line made of decimal
digits, a dot and a text that is not blank is captured as that text, trimmed. -/
theorem captureStory_numbered (st : Insights) (d : Char) (digits text : GoString)
    (hst : st.inTrendingStories = true) (hlen : st.trendingStories.length < 3)
    (hd : '0' ≤ d ∧ d ≤ '9') (hdigits : ∀ c ∈ digits, '0' ≤ c ∧ c ≤ '9')
    (hne : TrimSpace text ≠ []) :
    captureStory st (d :: digits ++ '.' :: text) =
      { st with trendingStories := st.trendingStories ++ [TrimSpace text] } := by
  have hstart : startsWithDigit (d :: digits ++ '.' :: text) = true := by
    simp [startsWithDigit, hd.1, hd.2]
  have h1 : HasPrefix (d :: digits ++ '.' :: text) "-".toList = false := by
    have : d ≠ '-' := by intro h; rw [h] at hd; exact absurd hd.1 (by decide)
    simp [HasPrefix, this]
  have h2 : HasPrefix (d :: digits ++ '.' :: text) "*".toList = false := by
    have : d ≠ '*' := by intro h; rw [h] at hd; exact absurd hd.1 (by decide)
    simp [HasPrefix, this]
  have h3 : HasPrefix (d :: digits ++ '.' :: text) bulletGlyph = false := by
    have : d ≠ 'â' := by intro h; rw [h] at hd; exact absurd hd.2 (by decide)
    simp [HasPrefix, bulletGlyph, this]
  have htrim : trimBullets (d :: digits ++ '.' :: text) = d :: digits ++ '.' :: text := by
    unfold trimBullets
    rw [TrimPrefix_of_not_HasPrefix _ _ h1, TrimPrefix_of_not_HasPrefix _ _ h2,
      TrimPrefix_of_not_HasPrefix _ _ h3]
  unfold captureStory
  simp only [hst, hstart, Bool.or_true, Bool.and_self, if_true, htrim,
    stripNumber_numbered d digits text hd hdigits, ne_eq, hne, not_false_eq_true, hlen, and_self]

theorem captureTopic_trendingStories (st : Insights) (line : GoString) :
    (captureTopic st line).trendingStories = st.trendingStories := by
  unfold captureTopic
  split
  · simp only []
    split <;> rfl
  · rfl

theorem captureStory_length_le (st : Insights) (line : GoString)
    (h : st.trendingStories.length ≤ 3) : (captureStory st line).trendingStories.length ≤ 3 := by
  unfold captureStory
  split
  · simp only []
    split
    · rename_i hc
      simp only [List.length_append, List.length_singleton]
      omega
    · exact h
  · exact h

theorem extractLine_length_le (st : Insights) (line : GoString)
    (h : st.trendingStories.length ≤ 3) : (extractLine st line).trendingStories.length ≤ 3 := by
  unfold extractLine
  simp only []
  split
  · exact h
  · split
    · exact h
    · split
      · exact h
      · apply captureStory_length_le
        rw [captureTopic_trendingStories]; exact h

/-- At most three stories are captured, whatever the text. -/
theorem trendingStories_length_le (summary : GoString) :
    (extractLines summary).trendingStories.length ≤ 3 := by
  unfold extractLines
  generalize Split '\n' summary = lines
  have key : ∀ (ls : List GoString) (st : Insights), st.trendingStories.length ≤ 3 →
      (ls.foldl extractLine st).trendingStories.length ≤ 3 := by
    intro ls
    induction ls with
    | nil => intro st h; exact h
    | cons l ls ih => intro st h; exact ih _ (extractLine_length_le st l h)
  exact key lines _ (by simp)

/-- C13, the code at digit-leading lines that do not start with a number and a dot.  In
story-collection mode the line "3D printing takes off. Costs fall" is captured as "Costs fall",
and "2024 was a record year. Chips led" as "Chips led": everything up to the first full stop of
the line is removed, not only a leading number with its dot. -/
theorem captureStory_strips_to_first_dot :
    startsWithDigit "3D printing takes off. Costs fall".toList = true ∧
    hasModeKeyword "3D printing takes off. Costs fall".toList = false ∧
    stripNumber "3D printing takes off. Costs fall".toList = " Costs fall".toList ∧
    extractLine storyMode "3D printing takes off. Costs fall".toList =
      { storyMode with trendingStories := ["Costs fall".toList] } ∧
    extractLine storyMode "2024 was a record year. Chips led".toList =
      { storyMode with trendingStories := ["Chips led".toList] } ∧
    (extractInsights
      "## Trending Stories\n3D printing takes off. Costs fall\n2024 was a record year. Chips led".toList).2 =
      ["Costs fall".toList, "Chips led".toList] ∧
    extractLine storyMode "3D printing takes off".toList =
      { storyMode with trendingStories := ["3D printing takes off".toList] } := by
  decide!

end TechNewsAgent
